import Mathlib

/-!
Verification development for the VLOven reflow/temperature oven controller.

The controller core (`VLOvenController.cpp`) is embedded as a pure state
machine: `CState` mirrors the `VLOvenController` member variables, and the
methods `setPhases`, `Start`, `Stop`, `startPhase` and `doCycle` are embedded
as state transformers that additionally return the list of observable side
effects (console events and heater duty-cycle commands) they emit.

Modelling conventions:
* C `double` values (temperatures, slopes, duty cycles) are modelled as `ℚ`.
  All claims under verification are order-theoretic (monotonicity, bounds,
  sign conditions), none depend on floating-point rounding.
* `millis()` timestamps (`unsigned long`) are modelled as `ℕ`; the clock is
  monotonic and wraparound-free for the duration of a run (spec §4.1), so
  `unsigned` wrap-around subtraction coincides with truncated `ℕ`
  subtraction.
* The Arduino PID library (`PID_v1`) is not part of this repository's
  sources. Its `Compute` method is modelled from the spec (§4.7): when the
  PID is in automatic mode and the sample period has elapsed it produces an
  output clamped to the configured output limits, otherwise it does nothing.
  The unclamped value produced by the PID arithmetic is supplied as an
  arbitrary environment input `raw` on each cycle, so every theorem below
  holds for every possible PID arithmetic result.
* The temperature sensor reading for a cycle is likewise an environment
  input (`VLOvenShield::readTC` is a hardware moving-average filter).
-/

namespace VLOven

/-- `PID_OUTPUT_LIMIT_MAX` from VLOvenController.h. -/
def PID_OUTPUT_LIMIT_MAX : ℚ := 100

/-- `PID_OUTPUT_LIMIT_MIN` from VLOvenController.h. -/
def PID_OUTPUT_LIMIT_MIN : ℚ := 0

/-- `PID_SAMPLE_TIME` (ms) from VLOvenController.h. -/
def PID_SAMPLE_TIME : ℕ := 250

/-- `PROFILE_SAMPLING_TIME` (ms) from VLOvenController.h. -/
def PROFILE_SAMPLING_TIME : ℕ := 50

/-- `TEMPLOGSAMPLING_TIME` (ms) from VLOvenController.h. -/
def TEMPLOGSAMPLING_TIME : ℕ := 500

/-- `MAXIMUM_TEMPERATURE_SLOPE` (°C/s) from VLOvenController.h. -/
def MAXIMUM_TEMPERATURE_SLOPE : ℚ := 100

/-- `VLOvenControllerPhase_t` from VLOvenController.h.  `Name` is the 11-byte
`char` array (`MAX_PHASENAME_LEN`), kept as the list of its byte values. -/
structure Phase where
  Name : List ℕ
  EndTemp : ℚ
  Slope : ℚ
  Duration : ℤ
deriving DecidableEq

/-- An all-zero phase record (`memset(..., 0, ...)` of a
`VLOvenControllerPhase_t`). -/
def zeroPhase : Phase := ⟨List.replicate 11 0, 0, 0, 0⟩

/-- Observable side effects of the controller: console events
(`oven[...]`, `phase[...]`, `pid[...]`, `profile[...]`) and duty-cycle
commands issued to the actuator via `VLOvenShield::setHeaterDuty`. -/
inductive Event where
  | ovenOn (b : Bool)
  | phaseEv (name : List ℕ) (endTemp slope : ℚ) (dur : ℤ)
  | pidEv (pdt : ℕ) (tmp slp spt out : ℚ)
  | profileEv (idx : ℤ)
  | setDuty (d : ℚ)
deriving DecidableEq

/-- The duty-cycle commands contained in an event list. -/
def dutyCmds : List Event → List ℚ :=
  List.filterMap (fun e => match e with | Event.setDuty d => some d | _ => none)

/-- The state of the embedded PID controller instance (`PID_v1` library,
modelled from the spec §4.7). `mode` is `true` for `AUTOMATIC`. -/
structure PIDState where
  mode : Bool
  lastTime : ℕ
  sampleTime : ℕ
  outMin : ℚ
  outMax : ℚ
  kp : ℚ
  ki : ℚ
  kd : ℚ
deriving DecidableEq

/-- `PIDTunings_t` from VLOvenController.h. -/
structure PIDTunings where
  kp : ℚ
  ki : ℚ
  kd : ℚ
deriving DecidableEq

/-- The member variables of `VLOvenController`. -/
structure CState where
  Running : Bool
  lpPhases : Option (List Phase)
  PhasesCount : ℤ
  CurrentPhase : ℤ
  PID_Setpoint : ℚ
  PID_Input : ℚ
  PID_Output : ℚ
  Slope : ℚ
  StartTemp : ℚ
  PhaseStartTime : ℕ
  ProcessStartTime : ℕ
  ProfileSampleTime : ℕ
  TemperatureSampleTime : ℕ
  pid : PIDState
  Tunings : PIDTunings
deriving DecidableEq

/-- The controller state built by the `VLOvenController` constructor:
no phases, phase index 0, count 0, not running.  Numeric fields the
constructor leaves uninitialized are taken as 0. -/
def initState : CState where
  Running := false
  lpPhases := none
  PhasesCount := 0
  CurrentPhase := 0
  PID_Setpoint := 0
  PID_Input := 0
  PID_Output := 0
  Slope := 0
  StartTemp := 0
  PhaseStartTime := 0
  ProcessStartTime := 0
  ProfileSampleTime := 0
  TemperatureSampleTime := 0
  pid := ⟨false, 0, 100, 0, 255, 0, 0, 0⟩
  Tunings := ⟨0, 0, 0⟩

/-- Clamping of the PID output to its configured limits (PID_v1 library,
modelled from the spec §4.7: "output clamped to [0, 100]"). -/
def clampOut (lo hi x : ℚ) : ℚ := max lo (min hi x)

/-- Array access `m_lpPhases[i]`; out-of-range access (which the C++ code
never performs in a reachable state) yields a default record. -/
def getPhase (s : CState) (i : ℤ) : Phase :=
  match s.lpPhases with
  | none => zeroPhase
  | some ps => if 0 ≤ i then (ps.get? i.toNat).getD zeroPhase else zeroPhase

/-- The effective-slope derivation performed by `VLOvenController::startPhase`
(VLOvenController.cpp lines 98–103). -/
def derivedSlope (ph : Phase) (startTemp : ℚ) : ℚ :=
  if 0 < ph.Slope then ph.Slope
  else if 0 < ph.Duration then (ph.EndTemp - startTemp) / (ph.Duration : ℚ)
  else if startTemp < ph.EndTemp then MAXIMUM_TEMPERATURE_SLOPE
  else -MAXIMUM_TEMPERATURE_SLOPE

/-- `VLOvenController::SetPIDTunings`. -/
def SetPIDTunings (kp ki kd : ℚ) (s : CState) : CState :=
  { s with Tunings := ⟨kp, ki, kd⟩ }

/-- `VLOvenController::startPhase` (VLOvenController.cpp lines 80–123).
Takes the phase index, the current `millis()` value and the sensor reading
`m_Shield.readTC()`; returns the new state and the emitted events. -/
def startPhase (idx : ℤ) (now : ℕ) (sensor : ℚ) (s : CState) :
    CState × List Event :=
  if idx < 0 ∨ s.PhasesCount ≤ idx then
    ({ s with Running := false, CurrentPhase := -1 }, [Event.ovenOn false])
  else
    let ph := getPhase s idx
    let sl := derivedSlope ph sensor
    ({ s with
        CurrentPhase := idx
        StartTemp := sensor
        Slope := sl
        PID_Setpoint := sensor
        pid := { s.pid with
          outMin := PID_OUTPUT_LIMIT_MIN
          outMax := PID_OUTPUT_LIMIT_MAX
          sampleTime := PID_SAMPLE_TIME
          kp := s.Tunings.kp, ki := s.Tunings.ki, kd := s.Tunings.kd
          mode := true }
        PhaseStartTime := now
        ProfileSampleTime := now },
     [Event.phaseEv ph.Name ph.EndTemp ph.Slope ph.Duration])

/-- `VLOvenController::Start` (VLOvenController.cpp lines 126–137).
Returns the `bool` result together with the new state and events. -/
def Start (now : ℕ) (sensor : ℚ) (s : CState) :
    Bool × CState × List Event :=
  if s.Running = false ∧ s.lpPhases ≠ none then
    let s₁ := { s with ProcessStartTime := now }
    let r := startPhase 0 now sensor s₁
    let s₂ := { r.1 with Running := true }
    (s₂.Running, s₂, r.2 ++ [Event.ovenOn true])
  else
    (s.Running, s, [])

/-- `VLOvenController::Stop` (VLOvenController.cpp lines 201–208):
PID to manual, heater duty forced to 0.0, running flag cleared,
`oven[on=0]` emitted. -/
def Stop (s : CState) : CState × List Event :=
  ({ s with pid := { s.pid with mode := false }, Running := false },
   [Event.setDuty 0, Event.ovenOn false])

/-- `VLOvenController::setPhases` (VLOvenController.cpp lines 36–44). -/
def setPhases (phs : Option (List Phase)) (count : ℤ) (s : CState) :
    CState × List Event :=
  let r := Stop s
  ({ r.1 with
      lpPhases := phs
      CurrentPhase := 0
      PhasesCount := count
      Running := false },
   r.2 ++ [Event.setDuty 0])

/-- One envelope-generator update: the body of the `m_Slope != 0.0` block of
`VLOvenController::doCycle` (VLOvenController.cpp lines 233–253), as a
function of the phase parameters, the captured start temperature, the
elapsed phase time in ms, and the current (slope, setpoint) pair. -/
def envelopeTick (ph : Phase) (startTemp : ℚ) (elapsedMs : ℕ)
    (sl sp : ℚ) : ℚ × ℚ :=
  if sl ≠ 0 then
    let spNew := startTemp + sl * ((elapsedMs : ℚ) / 1000)
    if startTemp < ph.EndTemp then
      if ph.EndTemp < spNew then (0, ph.EndTemp) else (sl, spNew)
    else if ph.EndTemp < startTemp then
      if spNew < ph.EndTemp then (0, ph.EndTemp) else (sl, spNew)
    else (sl, spNew)
  else (sl, sp)

/-- The phase-terminator predicate of `VLOvenController::doCycle`
(VLOvenController.cpp lines 257–271), evaluated with the phase parameters,
the captured start temperature, the current PID input (sensor reading) and
the elapsed phase time in ms. -/
def termCond (ph : Phase) (startTemp input : ℚ) (phaseDurMs : ℕ) : Bool :=
  (decide (0 < ph.Duration) &&
    decide (ph.Duration ≤ ((phaseDurMs / 1000 : ℕ) : ℤ)))
  || (decide (ph.Duration = 0) &&
      ((decide (startTemp ≤ ph.EndTemp) && decide (ph.EndTemp ≤ input))
       || (decide (ph.EndTemp ≤ startTemp) && decide (input ≤ ph.EndTemp))))

/-- The profile-envelope block of `VLOvenController::doCycle`
(VLOvenController.cpp lines 229–275): when the profile sampling period has
elapsed, update the setpoint along the envelope, and — if the effective
slope is (now) zero — evaluate the phase terminator and advance to the
next phase when it fires.  Expects `PID_Input` to have been updated with
this cycle's sensor reading already. -/
def envGate (now : ℕ) (sensor : ℚ) (s : CState) : CState × List Event :=
  if PROFILE_SAMPLING_TIME ≤ now - s.ProfileSampleTime then
    let ph := getPhase s s.CurrentPhase
    let s₂ := { s with ProfileSampleTime := now }
    let es := envelopeTick ph s₂.StartTemp (now - s₂.PhaseStartTime) s₂.Slope s₂.PID_Setpoint
    let s₃ := { s₂ with Slope := es.1, PID_Setpoint := es.2 }
    if s₃.Slope = 0 ∧ termCond ph s₃.StartTemp s₃.PID_Input (now - s₃.PhaseStartTime) then
      startPhase (s₃.CurrentPhase + 1) now sensor s₃
    else
      (s₃, [])
  else
    (s, [])

/-- The PID block of `VLOvenController::doCycle` (VLOvenController.cpp
lines 277–297): when `m_PID.Compute()` fires (automatic mode and sample
period elapsed — see the module comment on the PID model), clamp the PID
arithmetic result `raw` to the configured output limits, command that duty
cycle, and emit the `pid[...]` event. -/
def pidGate (now : ℕ) (raw : ℚ) (s : CState) : CState × List Event :=
  if s.pid.mode ∧ s.pid.sampleTime ≤ now - s.pid.lastTime then
    let out := clampOut s.pid.outMin s.pid.outMax raw
    let s' := { s with PID_Output := out, pid := { s.pid with lastTime := now } }
    (s', [Event.setDuty out,
          Event.pidEv (if s'.Running then now - s'.ProcessStartTime else 0)
            s'.PID_Input s'.Slope s'.PID_Setpoint s'.PID_Output])
  else
    (s, [])

/-- `VLOvenController::doCycle` (VLOvenController.cpp lines 211–307).
`now` is the `millis()` value for this cycle, `sensor` the reading of
`m_Shield.readTC()`, and `raw` the unclamped result of the PID arithmetic
for this cycle (see the module comment). -/
def doCycle (now : ℕ) (sensor : ℚ) (raw : ℚ) (s : CState) :
    CState × List Event :=
  if s.Running then
    let s₁ := { s with PID_Input := sensor }
    let r₁ := envGate now sensor s₁
    let r₂ := pidGate now raw r₁.1
    (r₂.1, r₁.2 ++ r₂.2)
  else
    if TEMPLOGSAMPLING_TIME ≤ now - s.TemperatureSampleTime then
      ({ s with TemperatureSampleTime := now }, [])
    else
      (s, [])

/-!
## The persistent profile store

The EEPROM layer of the main file (`src/unnamed/part_000`).  The EEPROM is a
byte-addressed memory.  Byte offsets and record sizes follow the AVR target
the source is written for: `sizeof(EEPROMSignature_t) = 9`,
`sizeof(ProfileHeader_t) = 20 + 2 = 22` (AVR `int` is 16-bit),
`sizeof(VLOvenControllerPhase_t) = 11 + 4 + 4 + 2 = 21` (AVR `double` is
32-bit), with no padding.  Cell contents are modelled by `EEVal`: a plain
byte for `char` data, and a (value, byte-index) pair for each byte of a
serialized numeric field.  No claim under verification depends on the bit
pattern of a stored `double` or `int`, only on values being read back
byte-for-byte as written and on `Name[0] == 0` sentinel detection, which
this abstraction preserves exactly.
-/

/-- One EEPROM cell. -/
inductive EEVal where
  | byteV (b : ℕ)
  | ratV (q : ℚ) (i : ℕ)
  | intV (z : ℤ) (i : ℕ)
deriving DecidableEq

/-- EEPROM contents, as a total map from byte offsets to cells.  Offsets at
or beyond `EEPROM.length()` are kept in the map; the scanning loops of the
source never read them. -/
def Mem : Type := ℕ → EEVal

/-- `EEPROM.write( i, v )`. -/
def memWrite (m : Mem) (i : ℕ) (v : EEVal) : Mem :=
  fun j => if j = i then v else m j

/-- Consecutive writes of a list of cells starting at an offset
(`CopyToEEPROM` / `EEPROM.put` of a struct). -/
def memWriteList (m : Mem) (off : ℕ) : List EEVal → Mem
  | [] => m
  | v :: vs => memWriteList (memWrite m off v) (off + 1) vs

/-- `sizeof(EEPROMSignature_t)`; `EEPROM_APPDATA_OFFSET = 0 + 9`. -/
def EEPROM_APPDATA_OFFSET : ℕ := 9

/-- `sizeof(ProfileHeader_t)` on the AVR target. -/
def sizeofHeader : ℕ := 22

/-- `sizeof(VLOvenControllerPhase_t)` on the AVR target. -/
def sizeofPhase : ℕ := 21

/-- The bytes of `DefaultSignature` (`"VLReflow\0"`). -/
def signatureCells : List EEVal :=
  [EEVal.byteV 86, EEVal.byteV 76, EEVal.byteV 82, EEVal.byteV 101,
   EEVal.byteV 102, EEVal.byteV 108, EEVal.byteV 111, EEVal.byteV 119,
   EEVal.byteV 0]

/-- `ProfileHeader_t`: the 20-byte name array (as byte values) and the
16-bit phases count. -/
structure PHeader where
  Name : List ℕ
  PhasesCount : ℤ
deriving DecidableEq

/-- `ProfileInfo_t`, minus the `EEPromOffset` scratch field and with the
heap phase buffer inlined as a list. -/
structure ProfileInfo where
  Header : PHeader
  phases : List Phase
deriving DecidableEq

/-- The cells of a `ProfileHeader_t` as laid out in EEPROM. -/
def serializeHeader (h : PHeader) : List EEVal :=
  h.Name.map EEVal.byteV ++ [EEVal.intV h.PhasesCount 0, EEVal.intV h.PhasesCount 1]

/-- The cells of a `VLOvenControllerPhase_t` as laid out in EEPROM:
11 name bytes, 4 bytes of `EndTemp`, 4 bytes of `Slope`, 2 bytes of
`Duration`. -/
def serializePhase (p : Phase) : List EEVal :=
  p.Name.map EEVal.byteV
    ++ [EEVal.ratV p.EndTemp 0, EEVal.ratV p.EndTemp 1,
        EEVal.ratV p.EndTemp 2, EEVal.ratV p.EndTemp 3]
    ++ [EEVal.ratV p.Slope 0, EEVal.ratV p.Slope 1,
        EEVal.ratV p.Slope 2, EEVal.ratV p.Slope 3]
    ++ [EEVal.intV p.Duration 0, EEVal.intV p.Duration 1]

/-- Reading one `char` cell back. -/
def readByte (v : EEVal) : ℕ :=
  match v with
  | EEVal.byteV b => b
  | _ => 0

/-- Reading a stored `double` back from its first cell. -/
def readRat (v : EEVal) : ℚ :=
  match v with
  | EEVal.ratV q _ => q
  | _ => 0

/-- Reading a stored `int` back from its first cell. -/
def readInt (v : EEVal) : ℤ :=
  match v with
  | EEVal.intV z _ => z
  | _ => 0

/-- `EEPROM.get( Offset, Header )` for a `ProfileHeader_t`. -/
def getHeader (m : Mem) (off : ℕ) : PHeader :=
  ⟨(List.range 20).map (fun j => readByte (m (off + j))), readInt (m (off + 20))⟩

/-- `EEPROM.get( Offset, Phase )` for a `VLOvenControllerPhase_t`. -/
def getStoredPhase (m : Mem) (off : ℕ) : Phase :=
  ⟨(List.range 11).map (fun j => readByte (m (off + j))),
   readRat (m (off + 11)), readRat (m (off + 15)), readInt (m (off + 19))⟩

/-- `EEPROMFormat` (part_000 lines 481–488): write the signature, zero-fill
the application data region up to `EEPROM.length()`. -/
def EEPROMFormat (len : ℕ) (m : Mem) : Mem :=
  memWriteList (memWriteList m 0 signatureCells) EEPROM_APPDATA_OFFSET
    (List.replicate (len - EEPROM_APPDATA_OFFSET) (EEVal.byteV 0))

/-- The record-scanning loop shared by `GetProfilesCount`,
`FindFreeEEPROMStart` and `LoadProfileHeader` (part_000): starting from an
offset, while `Offset < EEPROM.length() - sizeof(Header)`, read a header;
stop at the `Name[0] == 0` sentinel, otherwise advance by
`sizeof(Header) + PhasesCount * sizeof(Phase)`.  The recursion is paced by
an explicit fuel; every theorem below instantiates it with `len`, which is
provably sufficient on every well-formed catalog. -/
def findFreeAux (len : ℕ) (m : Mem) : ℕ → ℕ → ℤ
  | _, 0 => -1
  | off, fuel + 1 =>
    if off < len - sizeofHeader then
      let h := getHeader m off
      if h.Name.headD 0 = 0 then (off : ℤ)
      else findFreeAux len m (off + sizeofHeader + h.PhasesCount.toNat * sizeofPhase) fuel
    else -1

/-- `FindFreeEEPROMStart` (part_000 lines 516–532). -/
def FindFreeEEPROMStart (len : ℕ) (m : Mem) : ℤ :=
  findFreeAux len m EEPROM_APPDATA_OFFSET len

/-- The counting loop of `GetProfilesCount`. -/
def countAux (len : ℕ) (m : Mem) : ℕ → ℕ → ℕ
  | _, 0 => 0
  | off, fuel + 1 =>
    if off < len - sizeofHeader then
      let h := getHeader m off
      if h.Name.headD 0 = 0 then 0
      else countAux len m (off + sizeofHeader + h.PhasesCount.toNat * sizeofPhase) fuel + 1
    else 0

/-- `GetProfilesCount` (part_000 lines 411–428). -/
def GetProfilesCount (len : ℕ) (m : Mem) : ℕ :=
  countAux len m EEPROM_APPDATA_OFFSET len

/-- The scanning loop of `LoadProfileHeader` (part_000 lines 609–628),
returning the header and its offset. -/
def loadHeaderAux (len : ℕ) (m : Mem) : ℕ → ℕ → ℕ → Option (PHeader × ℕ)
  | _, _, 0 => none
  | off, idx, fuel + 1 =>
    if off < len - sizeofHeader then
      let h := getHeader m off
      if h.Name.headD 0 = 0 then none
      else if idx = 0 then some (h, off)
      else loadHeaderAux len m (off + sizeofHeader + h.PhasesCount.toNat * sizeofPhase)
        (idx - 1) fuel
    else none

/-- `LoadProfileHeader` for a non-negative index. -/
def LoadProfileHeader (len : ℕ) (m : Mem) (idx : ℕ) : Option (PHeader × ℕ) :=
  loadHeaderAux len m EEPROM_APPDATA_OFFSET idx len

/-- `LoadProfile` (part_000 lines 631–667): load the header, then read
`PhasesCount` phase records following it.  The `AllocProfilePhases` heap
allocation is assumed to succeed (its failure path is an out-of-memory
condition outside the claims under verification). -/
def LoadProfile (len : ℕ) (m : Mem) (idx : ℤ) : Option ProfileInfo :=
  if idx < 0 then none
  else
    match LoadProfileHeader len m idx.toNat with
    | none => none
    | some (h, off) =>
      if 0 < off then
        some ⟨h, (List.range h.PhasesCount.toNat).map
          (fun k => getStoredPhase m (off + sizeofHeader + k * sizeofPhase))⟩
      else none

/-- `EEPROMAppendProfile` (part_000 lines 541–555): find the first free
offset, fail if there is none, otherwise write the header followed by
`PhasesCount * sizeof(Phase)` bytes of the phase array.  The source
function falls off its end without a return value on the success path
(noted in spec §9); the model returns `true` there. -/
def EEPROMAppendProfile (len : ℕ) (m : Mem) (p : ProfileInfo) : Mem × Bool :=
  let off := FindFreeEEPROMStart len m
  if off ≤ 0 then (m, false)
  else
    let o := off.toNat
    let m₁ := memWriteList m o (serializeHeader p.Header)
    let m₂ := memWriteList m₁ (o + sizeofHeader)
      ((p.phases.flatMap serializePhase).take (p.Header.PhasesCount.toNat * sizeofPhase))
    (m₂, true)

/-- Byte values of a string literal padded with `0` to a fixed-size `char`
array (C aggregate initialization of the name fields). -/
def strBytes (s : String) (n : ℕ) : List ℕ :=
  (s.data.map Char.toNat ++ List.replicate n 0).take n

/-- `OVENCONTROLLER_PROFILEHEADER` and `OVENCONTROLLER_PHASES`
(part_000 lines 278–311). -/
def ovenControllerProfile : ProfileInfo :=
  ⟨⟨strBytes "Oven Controller" 20, 2⟩,
   [⟨strBytes "Heating" 11, 50, 2, 0⟩,
    ⟨strBytes "Hot" 11, 50, 0, -1⟩]⟩

/-- `PBFREEREFLOWCONTROLLER_PROFILEHEADER` and
`PBFREEREFLOWCONTROLLER_PHASES` (part_000 lines 219–269, 314–317).  The
sixth phase is named `"Reflow-1"` in the source initializer even though the
adjacent source comment reads `"Reflow-2"`. -/
def pbfreeReflowProfile : ProfileInfo :=
  ⟨⟨strBytes "PbFree - Reflow" 20, 8⟩,
   [⟨strBytes "Preheat-1" 11, 50, 2, 0⟩,
    ⟨strBytes "Preheat-2" 11, 150, 2, 0⟩,
    ⟨strBytes "Soak-1" 11, 200, 0, 100⟩,
    ⟨strBytes "Soak-2" 11, 217, 2, 0⟩,
    ⟨strBytes "Reflow-1" 11, 245, 0, 20⟩,
    ⟨strBytes "Reflow-1" 11, 217, 0, 20⟩,
    ⟨strBytes "Cooling" 11, 100, -3, 0⟩,
    ⟨strBytes "Done(HOT)" 11, 50, -10, 0⟩]⟩

/-- `EEPROMRegisterDefaultProfiles` (part_000 lines 579–600): append the
standard oven profile, then the Pb-free reflow profile.  The
`copyPS`/`AllocProfilePhases` plumbing that stages each PROGMEM profile
into SRAM is modelled as passing the profile value directly; the
allocations are assumed to succeed. -/
def EEPROMRegisterDefaultProfiles (len : ℕ) (m : Mem) : Mem :=
  (EEPROMAppendProfile len
    (EEPROMAppendProfile len m ovenControllerProfile).1 pbfreeReflowProfile).1

/-!
## The host command dispatcher

The pieces of `part_000` the claims refer to: the global state of the
sketch and the `p on` / `p nw` branches of `CmdProfiles`.
-/

/-- Console responses (`CONSOLESUCCESS` / `CONSOLEERROR` reason codes). -/
inductive Response where
  | success
  | errArgsCount
  | errOutOfRange
  | errInvalidOpt
  | errNoMemory
deriving DecidableEq

/-- The global state of the sketch: the controller instance, the active
profile (`m_ActiveProfile`; `none` models `lpPhases == NULL`), the active
profile index, and the EEPROM. -/
structure HostState where
  controller : CState
  activeProfile : Option ProfileInfo
  currentProfileIndex : ℤ
  memLen : ℕ
  mem : Mem

/-- The `"on"` branch of `CmdProfiles` (part_000 lines 1037–1049), invoked
with the correct argument count: with no active profile phase list it
reports `ARGINVALIDOPT`; otherwise it configures the controller with the
active phase list and starts it. -/
def cmdPOn (now : ℕ) (sensor : ℚ) (h : HostState) :
    HostState × Response × List Event :=
  match h.activeProfile with
  | none => (h, Response.errInvalidOpt, [])
  | some prof =>
    let r₁ := setPhases (some prof.phases) prof.Header.PhasesCount h.controller
    let r₂ := Start now sensor r₁.1
    ({ h with controller := r₂.2.1 }, Response.success, r₁.2 ++ r₂.2.2)

/-- The `"nw"` branch of `CmdProfiles` (part_000 lines 1095–1129), invoked
with the correct argument count: reject a name of `sizeof(Name) - 1 = 19`
or more bytes or a phase count below 1 with `ARGOUTOFRANGE`; otherwise
build a draft profile with `PhasesCount` zero-initialized phases, activate
it (`ActivateProfile` stops and clears the controller), and point the
profile index past the stored catalog.  The source `memcpy` copies exactly
`strlen(name)` bytes into the header name field; the name is modelled as
that byte list. -/
def cmdNw (name : List ℕ) (n : ℤ) (h : HostState) :
    HostState × Response × List Event :=
  if 19 ≤ name.length ∨ n < 1 then (h, Response.errOutOfRange, [])
  else
    let prof : ProfileInfo := ⟨⟨name, n⟩, List.replicate n.toNat zeroPhase⟩
    let r := setPhases none 0 h.controller
    let cnt := GetProfilesCount h.memLen h.mem
    ({ h with
        controller := r.1
        activeProfile := some prof
        currentProfileIndex := (cnt : ℤ) },
     Response.success, r.2 ++ [Event.profileEv (cnt : ℤ)])

/-!
## Characterization of reachable store states

`storeMem len m₀ ps` is the EEPROM contents after `EEPROMFormat len` on an
arbitrary initial memory `m₀` followed by successfully appending the
profiles `ps` in order: the signature, then the concatenated profile
records, then zeroes up to `len`, then the untouched initial contents.
`EEPROMFormat_eq_storeMem` and `EEPROMAppendProfile_storeMem` below prove
that the operations of the source produce exactly these memories.
-/

/-- The EEPROM cells of one stored profile record: header then phases. -/
def recordCells (p : ProfileInfo) : List EEVal :=
  serializeHeader p.Header ++ p.phases.flatMap serializePhase

/-- The EEPROM cells of a list of stored profile records. -/
def catalogCells (ps : List ProfileInfo) : List EEVal :=
  ps.flatMap recordCells

/-- The store state reached by `EEPROMFormat` followed by appending `ps`. -/
def storeMem (len : ℕ) (m₀ : Mem) (ps : List ProfileInfo) : Mem := fun i =>
  if i < EEPROM_APPDATA_OFFSET then signatureCells.getD i (EEVal.byteV 0)
  else if i - EEPROM_APPDATA_OFFSET < (catalogCells ps).length then
    (catalogCells ps).getD (i - EEPROM_APPDATA_OFFSET) (EEVal.byteV 0)
  else if i < len then EEVal.byteV 0
  else m₀ i

/-- Validity of an in-memory profile (spec §4.5 plus the structural facts
the C code maintains for every profile it ever stores): the name arrays
have their declared sizes, the profile name is non-empty, and the phase
count field agrees with the phase list and is at least 1. -/
def validProfile (p : ProfileInfo) : Prop :=
  p.Header.Name.length = 20 ∧ p.Header.Name.headD 0 ≠ 0 ∧
  p.Header.PhasesCount = (p.phases.length : ℤ) ∧ 1 ≤ p.phases.length ∧
  ∀ q ∈ p.phases, q.Name.length = 11

instance (p : ProfileInfo) : Decidable (validProfile p) := by
  unfold validProfile; infer_instance

/-!
## Auxiliary definitions for the envelope-generator claims

`envRun` iterates the envelope update of `doCycle` (one call per elapsed
profile-sampling gate) over a list of elapsed-time values, starting from
the state `startPhase` establishes: setpoint at the captured start
temperature and the derived effective slope.
-/

/-- Iterated envelope updates for one phase: the (slope, setpoint) pair
after the envelope ticks at the given elapsed times (ms since phase
start), starting from the state established by `startPhase`. -/
def envRun (ph : Phase) (startTemp : ℚ) (es : List ℕ) : ℚ × ℚ :=
  es.foldl (fun st e => envelopeTick ph startTemp e st.1 st.2)
    (derivedSlope ph startTemp, startTemp)

/-- The phase-terminator condition exactly as the specification words it
(spec §4.8): duration elapsed, or — at zero duration — the measured
temperature crosses `end_temp` in the direction of travel, with descent
meaning `start_temp > end_temp`.  This definition follows the
specification text and is compared against `termCond`, which follows the
source. -/
def specTermCond (ph : Phase) (startTemp input : ℚ) (phaseDurMs : ℕ) : Prop :=
  (0 < ph.Duration ∧ ph.Duration ≤ ((phaseDurMs / 1000 : ℕ) : ℤ))
  ∨ (ph.Duration = 0 ∧
      ((startTemp ≤ ph.EndTemp ∧ ph.EndTemp ≤ input)
        ∨ (ph.EndTemp < startTemp ∧ input ≤ ph.EndTemp)))

/-- The reachability invariant relating a phase's parameters to the
envelope state while the phase runs: the effective slope can only be zero
when the phase has a positive duration or its start and end temperatures
differ.  `startPhase` establishes it and every envelope tick preserves
it. -/
def phaseInv (ph : Phase) (startTemp slope : ℚ) : Prop :=
  slope = 0 → 0 < ph.Duration ∨ startTemp ≠ ph.EndTemp

instance (ph : Phase) (startTemp slope : ℚ) :
    Decidable (phaseInv ph startTemp slope) := by
  unfold phaseInv; infer_instance

/-!
## Concrete fixtures

Small concrete phases, controller states and host states used by the
counterexamples and witnesses below.
-/

/-- A descent phase (`end_temp` below the start temperature used with it)
whose configured slope is positive. -/
def descentPhase : Phase := ⟨strBytes "Cool" 11, 100, 2, 0⟩

/-- An ascent ramp phase: to 100 °C at 2 °C/s, terminate on temperature. -/
def rampPhase : Phase := ⟨strBytes "Ramp" 11, 100, 2, 0⟩

/-- An indefinite-hold phase (`duration = -1`), like the `"Hot"` default. -/
def foreverPhase : Phase := ⟨strBytes "Hot" 11, 50, 0, -1⟩

/-- A duration-bounded hold phase: 10 s at 150 °C. -/
def holdPhase : Phase := ⟨strBytes "Hold" 11, 150, 0, 10⟩

/-- A controller state mid-phase in a hold (slope already zero) on
`holdPhase`, as `startPhase` followed by envelope ticks would produce. -/
def holdState : CState :=
  { initState with
      Running := true
      lpPhases := some [holdPhase]
      PhasesCount := 1
      CurrentPhase := 0
      Slope := 0
      StartTemp := 150
      PID_Setpoint := 150 }

/-- A controller state mid-phase on the indefinite-hold phase. -/
def foreverState : CState :=
  { initState with
      Running := true
      lpPhases := some [foreverPhase]
      PhasesCount := 1
      CurrentPhase := 0
      Slope := 0
      StartTemp := 50
      PID_Setpoint := 50 }

/-- A minimal running controller state. -/
def runningState : CState := { initState with Running := true }

/-- The controller state after `setPhases([descentPhase], 1)` then
`Start()` at time 0 with the sensor reading 200 °C. -/
def descentStart : CState :=
  (Start 0 200 ((setPhases (some [descentPhase]) 1 initState).1)).2.1

/-- A host state with no active profile and an all-zero store. -/
def idleHost : HostState :=
  ⟨initState, none, -1, 1024, fun _ => EEVal.byteV 0⟩

/-- A 19-byte profile name (19 copies of `'A'`). -/
def name19 : List ℕ := List.replicate 19 65

end VLOven
namespace VLOven

/-- C5: `Stop()`, invoked from any state, sets the PID to manual mode, forces
the heater duty to 0.0, clears the running flag and emits the `oven[on=0]`
event — all by the time it returns (the model is a pure state transformer,
so the returned state and event list are the completed effects) — and
`setPhases(NULL, 0)` (the `set_phases(None)` of the spec) has the same
effect, plus one further zero duty command of its own. -/
theorem stop_forces_idle (s : CState) :
    (Stop s).1.pid.mode = false ∧ (Stop s).1.Running = false ∧
    (Stop s).2 = [Event.setDuty 0, Event.ovenOn false] ∧
    (setPhases none 0 s).1.pid.mode = false ∧
    (setPhases none 0 s).1.Running = false ∧
    (setPhases none 0 s).1.lpPhases = none ∧
    (setPhases none 0 s).2 = [Event.setDuty 0, Event.ovenOn false, Event.setDuty 0] :=
  ⟨rfl, rfl, rfl, rfl, rfl, rfl, rfl⟩

/-- C10: calling `Start()` while the controller is already running returns
`true` and leaves the entire run state unchanged — no timestamps are
re-captured, the current phase is not restarted, and no events are
emitted. -/
theorem start_while_running_is_noop (s : CState) (now : ℕ) (sensor : ℚ)
    (h : s.Running = true) :
    Start now sensor s = (true, s, []) := by
  simp [Start, h]

theorem start_while_running_is_noop_witness :
    runningState.Running = true ∧ Start 0 0 runningState = (true, runningState, []) :=
  ⟨rfl, start_while_running_is_noop runningState 0 0 rfl⟩

/-- C3 counterexample: the claim says a positive configured slope has its
sign copied so that the envelope moves toward `end_temp`.  Starting a phase
with configured slope `+2`, `end_temp = 100` and a sensor reading of 200
(`end_temp` below the start temperature) yields effective slope `+2`: the
source keeps the configured slope unchanged, moving the envelope away from
`end_temp`, where the claim requires `-2`. -/
theorem c3_counterexample :
    ((startPhase 0 0 200 ((setPhases (some [descentPhase]) 1 initState).1)).1.Slope = 2)
    ∧ descentPhase.EndTemp < (200 : ℚ) ∧ (0:ℚ) < 2 := by
  refine ⟨?_, by decide, by decide⟩
  decide

end VLOven
namespace VLOven

/-- C3 (amended): at phase start the effective slope is derived exactly as:
if the configured slope is positive it is used unchanged (no sign
adjustment); else if the duration is positive it is
`(end_temp - start_temp) / duration`; else it is `+100` when the captured
start temperature lies below `end_temp` and `-100` otherwise; and the
setpoint and captured start temperature are initialized to the sensor
reading taken at that instant. -/
theorem startPhase_derivation (s : CState) (idx : ℤ) (now : ℕ) (sensor : ℚ)
    (h0 : 0 ≤ idx) (h1 : idx < s.PhasesCount) :
    (startPhase idx now sensor s).1.StartTemp = sensor ∧
    (startPhase idx now sensor s).1.PID_Setpoint = sensor ∧
    (startPhase idx now sensor s).1.CurrentPhase = idx ∧
    (startPhase idx now sensor s).1.Slope =
      (if 0 < (getPhase s idx).Slope then (getPhase s idx).Slope
       else if 0 < (getPhase s idx).Duration then
         ((getPhase s idx).EndTemp - sensor) / ((getPhase s idx).Duration : ℚ)
       else if sensor < (getPhase s idx).EndTemp then 100 else -100) := by
  unfold startPhase
  rw [if_neg (by omega)]
  exact ⟨rfl, rfl, rfl, rfl⟩

theorem startPhase_derivation_witness :
    (0:ℤ) ≤ 0 ∧ (0:ℤ) < ((setPhases (some [descentPhase]) 1 initState).1).PhasesCount ∧
    ((startPhase 0 7 5 ((setPhases (some [descentPhase]) 1 initState).1)).1.StartTemp = 5 ∧
     (startPhase 0 7 5 ((setPhases (some [descentPhase]) 1 initState).1)).1.PID_Setpoint = 5 ∧
     (startPhase 0 7 5 ((setPhases (some [descentPhase]) 1 initState).1)).1.CurrentPhase = 0 ∧
     (startPhase 0 7 5 ((setPhases (some [descentPhase]) 1 initState).1)).1.Slope =
      (if 0 < (getPhase ((setPhases (some [descentPhase]) 1 initState).1) 0).Slope
       then (getPhase ((setPhases (some [descentPhase]) 1 initState).1) 0).Slope
       else if 0 < (getPhase ((setPhases (some [descentPhase]) 1 initState).1) 0).Duration then
         ((getPhase ((setPhases (some [descentPhase]) 1 initState).1) 0).EndTemp - 5) /
           (((getPhase ((setPhases (some [descentPhase]) 1 initState).1) 0).Duration : ℤ) : ℚ)
       else if (5:ℚ) < (getPhase ((setPhases (some [descentPhase]) 1 initState).1) 0).EndTemp
       then 100 else -100)) :=
  ⟨le_refl 0, by decide, startPhase_derivation _ 0 7 5 (by decide) (by decide)⟩

/-- C6: starting without an active profile is a no-op failure: `Start()`
with no phase list configured (and not running — the only reachable state
with a null phase list) returns `false`, changes nothing and emits nothing;
and the `p on` host command with no active profile responds
`ARGINVALIDOPT` and does not touch the controller. -/
theorem start_without_profile (c : CState) (now : ℕ) (sensor : ℚ) (h : HostState)
    (hrun : c.Running = false) (hphs : c.lpPhases = none)
    (hprof : h.activeProfile = none) :
    Start now sensor c = (false, c, []) ∧
    cmdPOn now sensor h = (h, Response.errInvalidOpt, []) := by
  constructor
  · simp [Start, hrun, hphs]
  · simp [cmdPOn, hprof]

theorem start_without_profile_witness :
    initState.Running = false ∧ initState.lpPhases = none ∧
    idleHost.activeProfile = none ∧
    (Start 3 7 initState = (false, initState, []) ∧
     cmdPOn 3 7 idleHost = (idleHost, Response.errInvalidOpt, [])) :=
  ⟨rfl, rfl, rfl, start_without_profile initState 3 7 idleHost rfl rfl rfl⟩

end VLOven
namespace VLOven

theorem dutyCmds_append (a b : List Event) :
    dutyCmds (a ++ b) = dutyCmds a ++ dutyCmds b :=
  List.filterMap_append a b _

theorem dutyCmds_startPhase (idx : ℤ) (now : ℕ) (sensor : ℚ) (s : CState) :
    dutyCmds (startPhase idx now sensor s).2 = [] := by
  unfold startPhase
  split <;> rfl

theorem dutyCmds_envGate (now : ℕ) (sensor : ℚ) (s : CState) :
    dutyCmds (envGate now sensor s).2 = [] := by
  simp only [envGate]
  split
  · split
    · exact dutyCmds_startPhase _ _ _ _
    · rfl
  · rfl

theorem clampOut_bounds (x : ℚ) : 0 ≤ clampOut 0 100 x ∧ clampOut 0 100 x ≤ 100 := by
  unfold clampOut
  exact ⟨le_max_left 0 _, max_le (by norm_num) (min_le_left _ _)⟩

theorem envGate_pid_limits (now : ℕ) (sensor : ℚ) (s : CState)
    (hlim : s.pid.outMin = 0 ∧ s.pid.outMax = 100) :
    (envGate now sensor s).1.pid.outMin = 0 ∧ (envGate now sensor s).1.pid.outMax = 100 := by
  simp only [envGate]
  split
  · split
    · simp only [startPhase]
      split
      · exact hlim
      · exact ⟨rfl, rfl⟩
    · exact hlim
  · exact hlim

theorem dutyCmds_pidGate (now : ℕ) (raw : ℚ) (t : CState) (d : ℚ)
    (hd : d ∈ dutyCmds (pidGate now raw t).2) :
    d = clampOut t.pid.outMin t.pid.outMax raw := by
  simp only [pidGate] at hd
  split at hd
  · simp [dutyCmds] at hd
    exact hd
  · simp [dutyCmds] at hd

/-- C4: every duty-cycle value the controller passes to `setHeaterDuty`
lies in [0, 100]: on any cycle the PID output is the raw PID arithmetic
result clamped to the configured output limits — which `startPhase` sets
to `PID_OUTPUT_LIMIT_MIN = 0` and `PID_OUTPUT_LIMIT_MAX = 100` (last
conjunct) before every phase — and the only other duty commands issued
anywhere (`Stop`, `setPhases`) are explicit zeros, `Start`/`startPhase`
issuing none of their own.  Quantified over every state whose PID output
limits are the ones `startPhase` establishes, every clock value, every
sensor reading and every raw PID result. -/
theorem pid_duty_bounded (s : CState) (now : ℕ) (sensor raw : ℚ)
    (phs : Option (List Phase)) (cnt idx : ℤ)
    (hlim : s.pid.outMin = 0 ∧ s.pid.outMax = 100) :
    (∀ d ∈ dutyCmds (doCycle now sensor raw s).2, 0 ≤ d ∧ d ≤ 100) ∧
    (∀ d ∈ dutyCmds (Stop s).2, 0 ≤ d ∧ d ≤ 100) ∧
    (∀ d ∈ dutyCmds (setPhases phs cnt s).2, 0 ≤ d ∧ d ≤ 100) ∧
    (∀ d ∈ dutyCmds (Start now sensor s).2.2, 0 ≤ d ∧ d ≤ 100) ∧
    (dutyCmds (startPhase idx now sensor s).2 = []) ∧
    (0 ≤ idx → idx < s.PhasesCount →
      (startPhase idx now sensor s).1.pid.outMin = 0 ∧
      (startPhase idx now sensor s).1.pid.outMax = 100) := by
  refine ⟨?_, ?_, ?_, ?_, dutyCmds_startPhase idx now sensor s, ?_⟩
  · intro d hd
    simp only [doCycle] at hd
    split at hd
    · rw [dutyCmds_append, dutyCmds_envGate, List.nil_append] at hd
      have hl2 := envGate_pid_limits now sensor { s with PID_Input := sensor } hlim
      have := dutyCmds_pidGate now raw _ d hd
      rw [hl2.1, hl2.2] at this
      rw [this]
      exact clampOut_bounds raw
    · split at hd <;> simp [dutyCmds] at hd
  · intro d hd
    simp [Stop, dutyCmds] at hd
    rw [hd]; norm_num
  · intro d hd
    simp [setPhases, Stop, dutyCmds] at hd
    rw [hd]; norm_num
  · intro d hd
    unfold Start at hd
    split at hd
    · simp only at hd
      rw [dutyCmds_append, dutyCmds_startPhase] at hd
      simp [dutyCmds] at hd
    · simp [dutyCmds] at hd
  · intro h0 h1
    unfold startPhase
    rw [if_neg (by omega)]
    exact ⟨rfl, rfl⟩

end VLOven
namespace VLOven

theorem pid_duty_bounded_witness :
    (descentStart.pid.outMin = 0 ∧ descentStart.pid.outMax = 100) ∧
    ((∀ d ∈ dutyCmds (doCycle 300 5 500 descentStart).2, 0 ≤ d ∧ d ≤ 100) ∧
     (∀ d ∈ dutyCmds (Stop descentStart).2, 0 ≤ d ∧ d ≤ 100) ∧
     (∀ d ∈ dutyCmds (setPhases none 0 descentStart).2, 0 ≤ d ∧ d ≤ 100) ∧
     (∀ d ∈ dutyCmds (Start 300 5 descentStart).2.2, 0 ≤ d ∧ d ≤ 100) ∧
     (dutyCmds (startPhase 0 300 5 descentStart).2 = []) ∧
     ((0:ℤ) ≤ 0 → (0:ℤ) < descentStart.PhasesCount →
       (startPhase 0 300 5 descentStart).1.pid.outMin = 0 ∧
       (startPhase 0 300 5 descentStart).1.pid.outMax = 100)) :=
  ⟨by decide, pid_duty_bounded descentStart 300 5 500 none 0 0 (by decide)⟩

/-- C9 counterexample: the claim says `p nw` accepts every name of at most
19 printable code points.  A 19-byte printable name (19 times `'A'`) with
the valid phase count 1 is rejected with `ARGOUTOFRANGE` and changes
nothing: the handler rejects `strlen(name) >= sizeof(Name) - 1 = 19`. -/
theorem cmdNw_counterexample :
    name19.length = 19 ∧ (∀ c ∈ name19, 32 ≤ c ∧ c ≤ 126) ∧
    cmdNw name19 1 idleHost = (idleHost, Response.errOutOfRange, []) :=
  ⟨by decide, by decide, rfl⟩

/-- C9 (amended): the `p nw <name> <n>` command accepts every name of at
most 18 bytes together with a phase count of at least 1, creating a
zero-initialized draft profile of `n` phases, making it the active profile
and pointing the profile index one past the stored catalog; a name of 19
bytes or more, or a phase count below 1, is rejected with `ARGOUTOFRANGE`
and causes no state change. -/
theorem cmdNw_validation (name : List ℕ) (n : ℤ) (h : HostState) :
    (name.length ≤ 18 → 1 ≤ n →
      cmdNw name n h =
        ({ h with
            controller := (setPhases none 0 h.controller).1
            activeProfile := some ⟨⟨name, n⟩, List.replicate n.toNat zeroPhase⟩
            currentProfileIndex := (GetProfilesCount h.memLen h.mem : ℤ) },
          Response.success,
          (setPhases none 0 h.controller).2 ++
            [Event.profileEv (GetProfilesCount h.memLen h.mem : ℤ)])) ∧
    (19 ≤ name.length ∨ n < 1 →
      cmdNw name n h = (h, Response.errOutOfRange, [])) := by
  constructor
  · intro h1 h2
    unfold cmdNw
    rw [if_neg (by omega)]
  · intro h1
    unfold cmdNw
    rw [if_pos h1]

theorem cmdNw_validation_witness :
    (([65] : List ℕ).length ≤ 18 ∧ (1:ℤ) ≤ 2) ∧
    cmdNw [65] 2 idleHost =
      ({ idleHost with
          controller := (setPhases none 0 idleHost.controller).1
          activeProfile := some ⟨⟨[65], 2⟩, List.replicate (2:ℤ).toNat zeroPhase⟩
          currentProfileIndex := (GetProfilesCount idleHost.memLen idleHost.mem : ℤ) },
        Response.success,
        (setPhases none 0 idleHost.controller).2 ++
          [Event.profileEv (GetProfilesCount idleHost.memLen idleHost.mem : ℤ)]) :=
  ⟨⟨by decide, by decide⟩,
   (cmdNw_validation [65] 2 idleHost).1 (by decide) (by decide)⟩

end VLOven
namespace VLOven

theorem derivedSlope_pos (ph : Phase) (st : ℚ) (hend : st < ph.EndTemp) :
    0 < derivedSlope ph st := by
  unfold derivedSlope
  by_cases h1 : 0 < ph.Slope
  · rw [if_pos h1]; exact h1
  · rw [if_neg h1]
    by_cases h2 : 0 < ph.Duration
    · rw [if_pos h2]
      exact div_pos (by linarith) (by exact_mod_cast h2)
    · rw [if_neg h2, if_pos hend]
      norm_num [MAXIMUM_TEMPERATURE_SLOPE]

theorem derivedSlope_neg (ph : Phase) (st : ℚ) (hend : ph.EndTemp < st)
    (hsl : ph.Slope ≤ 0) : derivedSlope ph st < 0 := by
  unfold derivedSlope
  rw [if_neg (by linarith)]
  by_cases h2 : 0 < ph.Duration
  · rw [if_pos h2]
    exact div_neg_of_neg_of_pos (by linarith) (by exact_mod_cast h2)
  · rw [if_neg h2, if_neg (by linarith)]
    norm_num [MAXIMUM_TEMPERATURE_SLOPE]

theorem chain_le_snoc (a b : ℕ) (l : List ℕ) (h : List.Chain (· ≤ ·) a l)
    (hb : l.getLastD a ≤ b) : List.Chain (· ≤ ·) a (l ++ [b]) := by
  induction l generalizing a with
  | nil => exact List.Chain.cons (by simpa using hb) List.Chain.nil
  | cons c l ih =>
    rw [List.chain_cons] at h
    rw [List.getLastD_cons] at hb
    exact List.Chain.cons h.1 (ih c h.2 hb)

theorem envelopeTick_ascent (ph : Phase) (st s0 : ℚ) (e₀ e : ℕ)
    (hend : st < ph.EndTemp) (hs : 0 < s0) (he : e₀ ≤ e) :
    envelopeTick ph st e
      (if ph.EndTemp < st + s0 * ((e₀:ℚ)/1000) then 0 else s0)
      (min (st + s0 * ((e₀:ℚ)/1000)) ph.EndTemp)
      = (if ph.EndTemp < st + s0 * ((e:ℚ)/1000) then 0 else s0,
         min (st + s0 * ((e:ℚ)/1000)) ph.EndTemp) := by
  have hmono : st + s0 * ((e₀:ℚ)/1000) ≤ st + s0 * ((e:ℚ)/1000) := by
    have hc : ((e₀:ℚ)) ≤ (e:ℚ) := by exact_mod_cast he
    have : (e₀:ℚ)/1000 ≤ (e:ℚ)/1000 := by linarith
    nlinarith
  by_cases hc : ph.EndTemp < st + s0 * ((e₀:ℚ)/1000)
  · have hc' : ph.EndTemp < st + s0 * ((e:ℚ)/1000) := lt_of_lt_of_le hc hmono
    rw [if_pos hc, if_pos hc']
    simp only [envelopeTick]
    rw [if_neg (by simp)]
    rw [min_eq_right hc.le, min_eq_right hc'.le]
  · have hle := not_lt.mp hc
    rw [if_neg hc, min_eq_left hle]
    simp only [envelopeTick]
    rw [if_pos hs.ne', if_pos hend]
    by_cases hc2 : ph.EndTemp < st + s0 * ((e:ℚ)/1000)
    · rw [if_pos hc2, if_pos hc2, min_eq_right hc2.le]
    · rw [if_neg hc2, if_neg hc2, min_eq_left (not_lt.mp hc2)]

theorem envSteps_ascent (ph : Phase) (st s0 : ℚ)
    (hend : st < ph.EndTemp) (hs : 0 < s0) (es : List ℕ) :
    ∀ (e₀ : ℕ), List.Chain (· ≤ ·) e₀ es →
      es.foldl (fun t e => envelopeTick ph st e t.1 t.2)
        (if ph.EndTemp < st + s0 * ((e₀:ℚ)/1000) then 0 else s0,
         min (st + s0 * ((e₀:ℚ)/1000)) ph.EndTemp)
      = (if ph.EndTemp < st + s0 * ((es.getLastD e₀ : ℚ)/1000) then 0 else s0,
         min (st + s0 * ((es.getLastD e₀ : ℚ)/1000)) ph.EndTemp) := by
  induction es with
  | nil => intro e₀ _; rfl
  | cons e es ih =>
    intro e₀ hch
    rw [List.chain_cons] at hch
    rw [List.foldl_cons, envelopeTick_ascent ph st s0 e₀ e hend hs hch.1,
      List.getLastD_cons]
    exact ih e hch.2

theorem envRun_ascent_closed (ph : Phase) (st : ℚ) (hend : st < ph.EndTemp)
    (es : List ℕ) (hch : List.Chain (· ≤ ·) 0 es) :
    envRun ph st es =
      (if ph.EndTemp < st + derivedSlope ph st * ((es.getLastD 0 : ℚ)/1000) then 0
       else derivedSlope ph st,
       min (st + derivedSlope ph st * ((es.getLastD 0 : ℚ)/1000)) ph.EndTemp) := by
  have hs := derivedSlope_pos ph st hend
  unfold envRun
  have hz : st + derivedSlope ph st * (((0:ℕ):ℚ)/1000) = st := by norm_num
  have h0 : (derivedSlope ph st, st)
      = (if ph.EndTemp < st + derivedSlope ph st * (((0:ℕ):ℚ)/1000) then (0:ℚ)
         else derivedSlope ph st,
         min (st + derivedSlope ph st * (((0:ℕ):ℚ)/1000)) ph.EndTemp) := by
    rw [hz, if_neg (lt_asymm hend), min_eq_left hend.le]
  rw [h0]
  exact envSteps_ascent ph st _ hend hs es 0 hch

end VLOven
namespace VLOven

theorem envelopeTick_descent (ph : Phase) (st s0 : ℚ) (e₀ e : ℕ)
    (hend : ph.EndTemp < st) (hs : s0 < 0) (he : e₀ ≤ e) :
    envelopeTick ph st e
      (if st + s0 * ((e₀:ℚ)/1000) < ph.EndTemp then 0 else s0)
      (max (st + s0 * ((e₀:ℚ)/1000)) ph.EndTemp)
      = (if st + s0 * ((e:ℚ)/1000) < ph.EndTemp then 0 else s0,
         max (st + s0 * ((e:ℚ)/1000)) ph.EndTemp) := by
  have hmono : st + s0 * ((e:ℚ)/1000) ≤ st + s0 * ((e₀:ℚ)/1000) := by
    have hc : ((e₀:ℚ)) ≤ (e:ℚ) := by exact_mod_cast he
    have : (e₀:ℚ)/1000 ≤ (e:ℚ)/1000 := by linarith
    nlinarith
  by_cases hc : st + s0 * ((e₀:ℚ)/1000) < ph.EndTemp
  · have hc' : st + s0 * ((e:ℚ)/1000) < ph.EndTemp := lt_of_le_of_lt hmono hc
    rw [if_pos hc, if_pos hc']
    simp only [envelopeTick]
    rw [if_neg (by simp)]
    rw [max_eq_right hc.le, max_eq_right hc'.le]
  · have hle := not_lt.mp hc
    rw [if_neg hc, max_eq_left hle]
    simp only [envelopeTick]
    rw [if_pos hs.ne, if_neg (by linarith : ¬ st < ph.EndTemp), if_pos hend]
    by_cases hc2 : st + s0 * ((e:ℚ)/1000) < ph.EndTemp
    · rw [if_pos hc2, if_pos hc2, max_eq_right hc2.le]
    · rw [if_neg hc2, if_neg hc2, max_eq_left (not_lt.mp hc2)]

theorem envSteps_descent (ph : Phase) (st s0 : ℚ)
    (hend : ph.EndTemp < st) (hs : s0 < 0) (es : List ℕ) :
    ∀ (e₀ : ℕ), List.Chain (· ≤ ·) e₀ es →
      es.foldl (fun t e => envelopeTick ph st e t.1 t.2)
        (if st + s0 * ((e₀:ℚ)/1000) < ph.EndTemp then 0 else s0,
         max (st + s0 * ((e₀:ℚ)/1000)) ph.EndTemp)
      = (if st + s0 * ((es.getLastD e₀ : ℚ)/1000) < ph.EndTemp then 0 else s0,
         max (st + s0 * ((es.getLastD e₀ : ℚ)/1000)) ph.EndTemp) := by
  induction es with
  | nil => intro e₀ _; rfl
  | cons e es ih =>
    intro e₀ hch
    rw [List.chain_cons] at hch
    rw [List.foldl_cons, envelopeTick_descent ph st s0 e₀ e hend hs hch.1,
      List.getLastD_cons]
    exact ih e hch.2

theorem envRun_descent_closed (ph : Phase) (st : ℚ) (hend : ph.EndTemp < st)
    (hsl : ph.Slope ≤ 0) (es : List ℕ) (hch : List.Chain (· ≤ ·) 0 es) :
    envRun ph st es =
      (if st + derivedSlope ph st * ((es.getLastD 0 : ℚ)/1000) < ph.EndTemp then 0
       else derivedSlope ph st,
       max (st + derivedSlope ph st * ((es.getLastD 0 : ℚ)/1000)) ph.EndTemp) := by
  have hs := derivedSlope_neg ph st hend hsl
  unfold envRun
  have hz : st + derivedSlope ph st * (((0:ℕ):ℚ)/1000) = st := by norm_num
  have h0 : (derivedSlope ph st, st)
      = (if st + derivedSlope ph st * (((0:ℕ):ℚ)/1000) < ph.EndTemp then (0:ℚ)
         else derivedSlope ph st,
         max (st + derivedSlope ph st * (((0:ℕ):ℚ)/1000)) ph.EndTemp) := by
    rw [hz, if_neg (lt_asymm hend), max_eq_left hend.le]
  rw [h0]
  exact envSteps_descent ph st _ hend hs es 0 hch

end VLOven
namespace VLOven

theorem envelopeTick_zero (ph : Phase) (st sp : ℚ) (e : ℕ) :
    envelopeTick ph st e 0 sp = (0, sp) := by
  simp only [envelopeTick]
  rw [if_neg (by simp)]

theorem envSteps_zero (ph : Phase) (st sp : ℚ) (es : List ℕ) :
    es.foldl (fun t e => envelopeTick ph st e t.1 t.2) ((0:ℚ), sp) = (0, sp) := by
  induction es with
  | nil => rfl
  | cons e es ih =>
    rw [List.foldl_cons, envelopeTick_zero ph st sp e]
    exact ih

theorem envRun_zero (ph : Phase) (st : ℚ) (hd : derivedSlope ph st = 0)
    (es : List ℕ) : envRun ph st es = (0, st) := by
  unfold envRun
  rw [hd]
  exact envSteps_zero ph st st es

theorem derivedSlope_eq_zero (ph : Phase) (st : ℚ) (heq : st = ph.EndTemp)
    (hsl : ph.Slope ≤ 0) (hdur : 0 < ph.Duration) : derivedSlope ph st = 0 := by
  unfold derivedSlope
  rw [if_neg (not_lt.mpr hsl), if_pos hdur, heq]
  simp

theorem envelopeTick_away (ph : Phase) (st s0 sp : ℚ) (e : ℕ) (hs : s0 ≠ 0)
    (hna : st = ph.EndTemp ∨ (ph.EndTemp < st ∧ 0 < s0)) :
    envelopeTick ph st e s0 sp = (s0, st + s0 * ((e:ℚ)/1000)) := by
  simp only [envelopeTick]
  rw [if_pos hs]
  rcases hna with heq | ⟨hlt, hpos⟩
  · rw [if_neg (by rw [heq]; exact lt_irrefl _),
      if_neg (by rw [heq]; exact lt_irrefl _)]
  · have hterm : (0:ℚ) ≤ s0 * ((e:ℚ)/1000) :=
      mul_nonneg hpos.le (by positivity)
    have hraw : ¬ st + s0 * ((e:ℚ)/1000) < ph.EndTemp := not_lt.mpr (by linarith)
    rw [if_neg (lt_asymm hlt), if_pos hlt, if_neg hraw]

theorem envSteps_away (ph : Phase) (st s0 : ℚ) (hs : s0 ≠ 0)
    (hna : st = ph.EndTemp ∨ (ph.EndTemp < st ∧ 0 < s0)) (es : List ℕ) :
    ∀ e₀ : ℕ,
      es.foldl (fun t e => envelopeTick ph st e t.1 t.2)
        (s0, st + s0 * ((e₀:ℚ)/1000))
      = (s0, st + s0 * ((es.getLastD e₀ : ℚ)/1000)) := by
  induction es with
  | nil => intro e₀; rfl
  | cons e es ih =>
    intro e₀
    rw [List.foldl_cons,
      envelopeTick_away ph st s0 (st + s0 * ((e₀:ℚ)/1000)) e hs hna,
      List.getLastD_cons]
    exact ih e

theorem envRun_away_closed (ph : Phase) (st : ℚ)
    (hs : derivedSlope ph st ≠ 0)
    (hna : st = ph.EndTemp ∨ (ph.EndTemp < st ∧ 0 < derivedSlope ph st))
    (es : List ℕ) :
    envRun ph st es
      = (derivedSlope ph st,
         st + derivedSlope ph st * ((es.getLastD 0 : ℚ)/1000)) := by
  unfold envRun
  have hz : st + derivedSlope ph st * (((0:ℕ):ℚ)/1000) = st := by norm_num
  have h0 : (derivedSlope ph st, st)
      = (derivedSlope ph st, st + derivedSlope ph st * (((0:ℕ):ℚ)/1000)) := by
    rw [hz]
  rw [h0]
  exact envSteps_away ph st _ hs hna es 0

end VLOven
namespace VLOven

/-- C1 (amended): the setpoint envelope is determined by the direction of
the slope derived at phase start, over any nondecreasing sequence of
envelope-tick elapsed times (the updates `doCycle` performs every
`PROFILE_SAMPLING_TIME`).  On ascent (`start_temp < end_temp`, any
configuration) and on descent (`end_temp < start_temp`) with configured
slope ≤ 0, the derived slope points toward `end_temp`: the setpoint equals
`start_temp + effective_slope × elapsed seconds` capped at `end_temp` on
ascent and floored at `end_temp` on descent; the effective slope is zeroed
exactly when the unclamped envelope strictly passes `end_temp`, and
otherwise still equals the slope derived at phase start; the setpoint is
monotonic in the direction of `end_temp` under appending a later tick; and
it stays between `min(start_temp, end_temp)` and
`max(start_temp, end_temp)`.  With `start_temp = end_temp`, configured
slope ≤ 0 and positive duration, the derived slope is zero and the setpoint
holds at `end_temp` for the whole phase.  In the remaining configurations —
descent with positive configured slope, or `start_temp = end_temp` with a
nonzero derived slope — no clamp branch ever fires: the effective slope
keeps its derived value and the setpoint follows the unclamped ramp
`start_temp + effective_slope × elapsed seconds`. -/
theorem envelope_monotone_bounded (ph : Phase) (startTemp : ℚ) (es : List ℕ) (e' : ℕ)
    (hch : List.Chain (· ≤ ·) 0 es) (he' : es.getLastD 0 ≤ e') :
    (startTemp < ph.EndTemp →
      (envRun ph startTemp es).2
        = min (startTemp + derivedSlope ph startTemp * ((es.getLastD 0 : ℚ)/1000))
            ph.EndTemp ∧
      ((envRun ph startTemp es).1 = 0 ↔
        ph.EndTemp < startTemp + derivedSlope ph startTemp * ((es.getLastD 0 : ℚ)/1000)) ∧
      (envRun ph startTemp es).2 ≤ (envRun ph startTemp (es ++ [e'])).2 ∧
      (min startTemp ph.EndTemp ≤ (envRun ph startTemp es).2 ∧
        (envRun ph startTemp es).2 ≤ max startTemp ph.EndTemp) ∧
      ((envRun ph startTemp es).1 = 0 ∨
        (envRun ph startTemp es).1 = derivedSlope ph startTemp)) ∧
    (ph.EndTemp < startTemp → ph.Slope ≤ 0 →
      (envRun ph startTemp es).2
        = max (startTemp + derivedSlope ph startTemp * ((es.getLastD 0 : ℚ)/1000))
            ph.EndTemp ∧
      ((envRun ph startTemp es).1 = 0 ↔
        startTemp + derivedSlope ph startTemp * ((es.getLastD 0 : ℚ)/1000) < ph.EndTemp) ∧
      (envRun ph startTemp (es ++ [e'])).2 ≤ (envRun ph startTemp es).2 ∧
      (min startTemp ph.EndTemp ≤ (envRun ph startTemp es).2 ∧
        (envRun ph startTemp es).2 ≤ max startTemp ph.EndTemp) ∧
      ((envRun ph startTemp es).1 = 0 ∨
        (envRun ph startTemp es).1 = derivedSlope ph startTemp)) ∧
    (startTemp = ph.EndTemp → ph.Slope ≤ 0 → 0 < ph.Duration →
      envRun ph startTemp es = (0, ph.EndTemp)) ∧
    ((ph.EndTemp < startTemp ∧ 0 < ph.Slope) ∨
        (startTemp = ph.EndTemp ∧ derivedSlope ph startTemp ≠ 0) →
      envRun ph startTemp es
        = (derivedSlope ph startTemp,
           startTemp + derivedSlope ph startTemp * ((es.getLastD 0 : ℚ)/1000))) := by
  have hch' : List.Chain (· ≤ ·) 0 (es ++ [e']) := chain_le_snoc 0 e' es hch he'
  refine ⟨fun hasc => ?_, fun hdesc hsl => ?_, fun heq hsl hdur => ?_, fun hna => ?_⟩
  · have hs := derivedSlope_pos ph startTemp hasc
    have h1 := envRun_ascent_closed ph startTemp hasc es hch
    have h2 := envRun_ascent_closed ph startTemp hasc (es ++ [e']) hch'
    rw [List.getLastD_concat] at h2
    have hcast : ((es.getLastD 0 : ℕ) : ℚ) ≤ (e' : ℚ) := by exact_mod_cast he'
    have hrawmono : startTemp + derivedSlope ph startTemp * ((es.getLastD 0 : ℚ)/1000)
        ≤ startTemp + derivedSlope ph startTemp * ((e' : ℚ)/1000) := by
      have : (es.getLastD 0 : ℚ)/1000 ≤ (e' : ℚ)/1000 := by linarith
      nlinarith
    have hrawge : startTemp ≤ startTemp + derivedSlope ph startTemp * ((es.getLastD 0 : ℚ)/1000) := by
      have : (0:ℚ) ≤ derivedSlope ph startTemp * ((es.getLastD 0 : ℚ)/1000) :=
        mul_nonneg hs.le (by positivity)
      linarith
    refine ⟨?_, ?_, ?_, ⟨?_, ?_⟩, ?_⟩
    · rw [h1]
    · rw [h1]
      by_cases hcr : ph.EndTemp < startTemp + derivedSlope ph startTemp * ((es.getLastD 0 : ℚ)/1000)
      · rw [if_pos hcr]; exact iff_of_true rfl hcr
      · rw [if_neg hcr]; exact iff_of_false hs.ne' hcr
    · rw [h1, h2]
      exact min_le_min hrawmono (le_refl _)
    · rw [h1, min_eq_left hasc.le]
      exact le_min hrawge hasc.le
    · rw [h1, max_eq_right hasc.le]
      exact min_le_right _ _
    · rw [h1]
      by_cases hcr : ph.EndTemp < startTemp + derivedSlope ph startTemp * ((es.getLastD 0 : ℚ)/1000)
      · rw [if_pos hcr]; exact Or.inl rfl
      · rw [if_neg hcr]; exact Or.inr rfl
  · have hs := derivedSlope_neg ph startTemp hdesc hsl
    have h1 := envRun_descent_closed ph startTemp hdesc hsl es hch
    have h2 := envRun_descent_closed ph startTemp hdesc hsl (es ++ [e']) hch'
    rw [List.getLastD_concat] at h2
    have hcast : ((es.getLastD 0 : ℕ) : ℚ) ≤ (e' : ℚ) := by exact_mod_cast he'
    have hrawmono : startTemp + derivedSlope ph startTemp * ((e' : ℚ)/1000)
        ≤ startTemp + derivedSlope ph startTemp * ((es.getLastD 0 : ℚ)/1000) := by
      have : (es.getLastD 0 : ℚ)/1000 ≤ (e' : ℚ)/1000 := by linarith
      nlinarith
    have hrawle : startTemp + derivedSlope ph startTemp * ((es.getLastD 0 : ℚ)/1000) ≤ startTemp := by
      have : derivedSlope ph startTemp * ((es.getLastD 0 : ℚ)/1000) ≤ 0 :=
        mul_nonpos_of_nonpos_of_nonneg hs.le (by positivity)
      linarith
    refine ⟨?_, ?_, ?_, ⟨?_, ?_⟩, ?_⟩
    · rw [h1]
    · rw [h1]
      by_cases hcr : startTemp + derivedSlope ph startTemp * ((es.getLastD 0 : ℚ)/1000) < ph.EndTemp
      · rw [if_pos hcr]; exact iff_of_true rfl hcr
      · rw [if_neg hcr]; exact iff_of_false hs.ne hcr
    · rw [h1, h2]
      exact max_le_max hrawmono (le_refl _)
    · rw [h1, min_eq_right hdesc.le]
      exact le_max_right _ _
    · rw [h1, max_eq_left hdesc.le]
      exact max_le hrawle hdesc.le
    · rw [h1]
      by_cases hcr : startTemp + derivedSlope ph startTemp * ((es.getLastD 0 : ℚ)/1000) < ph.EndTemp
      · rw [if_pos hcr]; exact Or.inl rfl
      · rw [if_neg hcr]; exact Or.inr rfl
  · rw [envRun_zero ph startTemp (derivedSlope_eq_zero ph startTemp heq hsl hdur) es, heq]
  · rcases hna with ⟨hlt, hpos⟩ | ⟨heq, hne⟩
    · have hds : derivedSlope ph startTemp = ph.Slope := by
        unfold derivedSlope
        rw [if_pos hpos]
      exact envRun_away_closed ph startTemp (by rw [hds]; exact hpos.ne')
        (Or.inr ⟨hlt, by rw [hds]; exact hpos⟩) es
    · exact envRun_away_closed ph startTemp hne (Or.inl heq) es

end VLOven
namespace VLOven

theorem descentStart_eq :
    descentStart =
      { Running := true, lpPhases := some [descentPhase], PhasesCount := 1,
        CurrentPhase := 0, PID_Setpoint := 200, PID_Input := 0, PID_Output := 0,
        Slope := 2, StartTemp := 200, PhaseStartTime := 0, ProcessStartTime := 0,
        ProfileSampleTime := 0, TemperatureSampleTime := 0,
        pid := ⟨true, 0, 250, 0, 100, 0, 0, 0⟩, Tunings := ⟨0, 0, 0⟩ } := by
  decide

theorem tick_eq : envelopeTick descentPhase 200 50 2 200 = (2, 2001/10) := by
  simp only [envelopeTick]
  norm_num [descentPhase, strBytes]

end VLOven
namespace VLOven

theorem pidGate_frame (now : ℕ) (raw : ℚ) (t : CState) :
    (pidGate now raw t).1.PID_Setpoint = t.PID_Setpoint ∧
    (pidGate now raw t).1.CurrentPhase = t.CurrentPhase ∧
    (pidGate now raw t).1.Running = t.Running ∧
    (pidGate now raw t).1.Slope = t.Slope := by
  simp only [pidGate]
  split <;> exact ⟨rfl, rfl, rfl, rfl⟩

theorem doCycle_via_gates (now : ℕ) (sensor raw : ℚ) (s : CState)
    (hrun : s.Running = true) :
    (doCycle now sensor raw s).1
      = (pidGate now raw (envGate now sensor { s with PID_Input := sensor }).1).1 := by
  unfold doCycle
  rw [if_pos hrun]

theorem envGate_nofire (now : ℕ) (sensor : ℚ) (s : CState)
    (hgate : PROFILE_SAMPLING_TIME ≤ now - s.ProfileSampleTime)
    (hterm : ¬((envelopeTick (getPhase s s.CurrentPhase) s.StartTemp
        (now - s.PhaseStartTime) s.Slope s.PID_Setpoint).1 = 0 ∧
        termCond (getPhase s s.CurrentPhase) s.StartTemp s.PID_Input
          (now - s.PhaseStartTime) = true)) :
    (envGate now sensor s).1
      = { s with
          ProfileSampleTime := now
          Slope := (envelopeTick (getPhase s s.CurrentPhase) s.StartTemp
            (now - s.PhaseStartTime) s.Slope s.PID_Setpoint).1
          PID_Setpoint := (envelopeTick (getPhase s s.CurrentPhase) s.StartTemp
            (now - s.PhaseStartTime) s.Slope s.PID_Setpoint).2 } := by
  simp only [envGate]
  rw [if_pos hgate, if_neg hterm]

end VLOven
namespace VLOven

/-- C1 counterexample: on a phase with `end_temp = 100` and configured
slope `+2` started at a sensor reading of 200 (a descent phase), one
`doCycle` envelope tick 50 ms later sets the setpoint to 200.1 — strictly
above `max(start_temp, end_temp) = 200` — refuting the claimed clamping
and boundedness for every phase. -/
theorem envelope_counterexample :
    descentStart.StartTemp = 200 ∧
    getPhase descentStart descentStart.CurrentPhase = descentPhase ∧
    descentPhase.EndTemp < descentStart.StartTemp ∧
    0 < descentPhase.Slope ∧
    (doCycle 50 200 0 descentStart).1.PID_Setpoint = 2001/10 ∧
    max descentStart.StartTemp descentPhase.EndTemp
      < (doCycle 50 200 0 descentStart).1.PID_Setpoint := by
  have htick : envelopeTick
      (getPhase { descentStart with PID_Input := (200:ℚ) }
        ({ descentStart with PID_Input := (200:ℚ) } : CState).CurrentPhase)
      ({ descentStart with PID_Input := (200:ℚ) } : CState).StartTemp
      (50 - ({ descentStart with PID_Input := (200:ℚ) } : CState).PhaseStartTime)
      ({ descentStart with PID_Input := (200:ℚ) } : CState).Slope
      ({ descentStart with PID_Input := (200:ℚ) } : CState).PID_Setpoint
      = (2, 2001/10) := tick_eq
  have hmain : (doCycle 50 200 0 descentStart).1.PID_Setpoint = 2001/10 := by
    rw [doCycle_via_gates 50 200 0 descentStart rfl,
      (pidGate_frame 50 0 _).1,
      envGate_nofire 50 200 _ (by decide) (by rw [htick]; norm_num)]
    dsimp only
    rw [htick]
  have hmax : max descentStart.StartTemp descentPhase.EndTemp = 200 := by decide
  refine ⟨by decide, by decide, by decide, by decide, hmain, ?_⟩
  rw [hmain, hmax]
  norm_num

end VLOven
namespace VLOven

theorem envelope_monotone_bounded_witness :
    (List.Chain (· ≤ ·) 0 [50, 100] ∧
      ([50, 100] : List ℕ).getLastD 0 ≤ 150) ∧
    (((25:ℚ) < rampPhase.EndTemp →
      (envRun rampPhase 25 [50, 100]).2
        = min ((25:ℚ) + derivedSlope rampPhase 25 * ((([50, 100] : List ℕ).getLastD 0 : ℚ)/1000))
            rampPhase.EndTemp ∧
      ((envRun rampPhase 25 [50, 100]).1 = 0 ↔
        rampPhase.EndTemp < (25:ℚ) + derivedSlope rampPhase 25 * ((([50, 100] : List ℕ).getLastD 0 : ℚ)/1000)) ∧
      (envRun rampPhase 25 [50, 100]).2 ≤ (envRun rampPhase 25 ([50, 100] ++ [150])).2 ∧
      (min (25:ℚ) rampPhase.EndTemp ≤ (envRun rampPhase 25 [50, 100]).2 ∧
        (envRun rampPhase 25 [50, 100]).2 ≤ max (25:ℚ) rampPhase.EndTemp) ∧
      ((envRun rampPhase 25 [50, 100]).1 = 0 ∨
        (envRun rampPhase 25 [50, 100]).1 = derivedSlope rampPhase 25)) ∧
    (rampPhase.EndTemp < (25:ℚ) → rampPhase.Slope ≤ 0 →
      (envRun rampPhase 25 [50, 100]).2
        = max ((25:ℚ) + derivedSlope rampPhase 25 * ((([50, 100] : List ℕ).getLastD 0 : ℚ)/1000))
            rampPhase.EndTemp ∧
      ((envRun rampPhase 25 [50, 100]).1 = 0 ↔
        (25:ℚ) + derivedSlope rampPhase 25 * ((([50, 100] : List ℕ).getLastD 0 : ℚ)/1000) < rampPhase.EndTemp) ∧
      (envRun rampPhase 25 ([50, 100] ++ [150])).2 ≤ (envRun rampPhase 25 [50, 100]).2 ∧
      (min (25:ℚ) rampPhase.EndTemp ≤ (envRun rampPhase 25 [50, 100]).2 ∧
        (envRun rampPhase 25 [50, 100]).2 ≤ max (25:ℚ) rampPhase.EndTemp) ∧
      ((envRun rampPhase 25 [50, 100]).1 = 0 ∨
        (envRun rampPhase 25 [50, 100]).1 = derivedSlope rampPhase 25)) ∧
    ((25:ℚ) = rampPhase.EndTemp → rampPhase.Slope ≤ 0 → 0 < rampPhase.Duration →
      envRun rampPhase 25 [50, 100] = (0, rampPhase.EndTemp)) ∧
    ((rampPhase.EndTemp < (25:ℚ) ∧ 0 < rampPhase.Slope) ∨
        ((25:ℚ) = rampPhase.EndTemp ∧ derivedSlope rampPhase 25 ≠ 0) →
      envRun rampPhase 25 [50, 100]
        = (derivedSlope rampPhase 25,
           (25:ℚ) + derivedSlope rampPhase 25 * ((([50, 100] : List ℕ).getLastD 0 : ℚ)/1000)))) :=
  ⟨⟨List.Chain.cons (by omega) (List.Chain.cons (by omega) List.Chain.nil),
    by decide⟩,
   envelope_monotone_bounded rampPhase 25 [50, 100] 150
     (List.Chain.cons (by omega) (List.Chain.cons (by omega) List.Chain.nil))
     (by decide)⟩

end VLOven
namespace VLOven

theorem termCond_neg_duration (ph : Phase) (st inp : ℚ) (e : ℕ)
    (hd : ph.Duration < 0) : termCond ph st inp e = false := by
  simp only [termCond, Bool.or_eq_false_iff, Bool.and_eq_false_iff]
  constructor
  · left; simpa using by omega
  · left; simpa using by omega

theorem termCond_iff_spec (ph : Phase) (st inp : ℚ) (e : ℕ)
    (hinv : 0 < ph.Duration ∨ st ≠ ph.EndTemp) :
    termCond ph st inp e = true ↔ specTermCond ph st inp e := by
  simp only [termCond, specTermCond, Bool.or_eq_true, Bool.and_eq_true,
    decide_eq_true_eq]
  rcases hinv with hd | hne
  · constructor
    · rintro (h | h)
      · exact Or.inl h
      · exact absurd h.1 (by omega)
    · rintro (h | h)
      · exact Or.inl h
      · exact absurd h.1 (by omega)
  · by_cases hd0 : ph.Duration = 0
    · constructor
      · rintro (h | ⟨h0, hcross | hcross⟩)
        · exact Or.inl h
        · exact Or.inr ⟨h0, Or.inl hcross⟩
        · exact Or.inr ⟨h0, Or.inr
            ⟨hcross.1.lt_of_ne (fun hx => hne hx.symm), hcross.2⟩⟩
      · rintro (h | ⟨h0, hcross | hcross⟩)
        · exact Or.inl h
        · exact Or.inr ⟨h0, Or.inl hcross⟩
        · exact Or.inr ⟨h0, Or.inr ⟨hcross.1.le, hcross.2⟩⟩
    · simp [hd0]

theorem envelopeTick_phaseInv (ph : Phase) (st sl sp : ℚ) (e : ℕ)
    (h : phaseInv ph st sl) :
    phaseInv ph st (envelopeTick ph st e sl sp).1 := by
  intro hz
  simp only [envelopeTick] at hz
  split at hz
  · split at hz
    · split at hz
      · exact Or.inr (ne_of_lt (by assumption))
      · exact h hz
    · split at hz
      · split at hz
        · exact Or.inr (ne_of_gt (by assumption))
        · exact h hz
      · exact h hz
  · exact h hz

theorem derivedSlope_phaseInv (ph : Phase) (st : ℚ) :
    phaseInv ph st (derivedSlope ph st) := by
  intro hz
  unfold derivedSlope at hz
  split at hz
  · exact absurd hz (ne_of_gt (by assumption))
  · split at hz
    · exact Or.inl (by assumption)
    · split at hz
      · exact absurd hz (by norm_num [MAXIMUM_TEMPERATURE_SLOPE])
      · exact absurd hz (by norm_num [MAXIMUM_TEMPERATURE_SLOPE])

theorem envGate_idle (now : ℕ) (sensor : ℚ) (s : CState)
    (hgate : ¬ PROFILE_SAMPLING_TIME ≤ now - s.ProfileSampleTime) :
    envGate now sensor s = (s, []) := by
  simp only [envGate]
  rw [if_neg hgate]

theorem envGate_fire (now : ℕ) (sensor : ℚ) (s : CState)
    (hgate : PROFILE_SAMPLING_TIME ≤ now - s.ProfileSampleTime)
    (hfire : (envelopeTick (getPhase s s.CurrentPhase) s.StartTemp
        (now - s.PhaseStartTime) s.Slope s.PID_Setpoint).1 = 0 ∧
        termCond (getPhase s s.CurrentPhase) s.StartTemp s.PID_Input
          (now - s.PhaseStartTime) = true) :
    envGate now sensor s = startPhase (s.CurrentPhase + 1) now sensor
      { s with
          ProfileSampleTime := now
          Slope := (envelopeTick (getPhase s s.CurrentPhase) s.StartTemp
            (now - s.PhaseStartTime) s.Slope s.PID_Setpoint).1
          PID_Setpoint := (envelopeTick (getPhase s s.CurrentPhase) s.StartTemp
            (now - s.PhaseStartTime) s.Slope s.PID_Setpoint).2 } := by
  simp only [envGate]
  rw [if_pos hgate, if_pos hfire]

theorem startPhase_currentPhase (idx : ℤ) (now : ℕ) (sensor : ℚ) (s : CState) :
    (startPhase idx now sensor s).1.CurrentPhase = idx ∨
    ((startPhase idx now sensor s).1.CurrentPhase = -1 ∧
      (idx < 0 ∨ s.PhasesCount ≤ idx)) := by
  unfold startPhase
  split
  · exact Or.inr ⟨rfl, by assumption⟩
  · exact Or.inl rfl

end VLOven
namespace VLOven

/-- C2: while running (from any state satisfying the reachability
invariant `phaseInv`, which `startPhase` establishes and every envelope
tick preserves), a `doCycle` call leaves the current phase exactly unless
the envelope gate is open, the effective slope after the envelope update
is zero, and the specification's terminator condition holds — duration
reached when `duration > 0`, or at `duration = 0` the measured temperature
crossing `end_temp` in the direction of travel (`sensor ≥ end_temp` on
ascent `start_temp ≤ end_temp`, `sensor ≤ end_temp` on descent
`start_temp > end_temp`); and a phase with `duration < 0` never
self-terminates: the phase index and the running flag survive every
`doCycle`, so only `Stop()`/`setPhases(NULL)` transition out of it. -/
theorem phase_termination (s : CState) (now : ℕ) (sensor raw : ℚ)
    (hrun : s.Running = true) (hcur : 0 ≤ s.CurrentPhase)
    (hinv : phaseInv (getPhase s s.CurrentPhase) s.StartTemp s.Slope) :
    ((doCycle now sensor raw s).1.CurrentPhase ≠ s.CurrentPhase ↔
      (PROFILE_SAMPLING_TIME ≤ now - s.ProfileSampleTime ∧
        (envelopeTick (getPhase s s.CurrentPhase) s.StartTemp
          (now - s.PhaseStartTime) s.Slope s.PID_Setpoint).1 = 0 ∧
        specTermCond (getPhase s s.CurrentPhase) s.StartTemp sensor
          (now - s.PhaseStartTime))) ∧
    ((getPhase s s.CurrentPhase).Duration < 0 →
      (doCycle now sensor raw s).1.CurrentPhase = s.CurrentPhase ∧
      (doCycle now sensor raw s).1.Running = true) := by
  have hdo := doCycle_via_gates now sensor raw s hrun
  have hpf := pidGate_frame now raw (envGate now sensor { s with PID_Input := sensor }).1
  have hcp : (doCycle now sensor raw s).1.CurrentPhase
      = (envGate now sensor { s with PID_Input := sensor }).1.CurrentPhase := by
    rw [hdo, hpf.2.1]
  have hrn : (doCycle now sensor raw s).1.Running
      = (envGate now sensor { s with PID_Input := sensor }).1.Running := by
    rw [hdo, hpf.2.2.1]
  have hinvTick : phaseInv (getPhase s s.CurrentPhase) s.StartTemp
      (envelopeTick (getPhase s s.CurrentPhase) s.StartTemp
        (now - s.PhaseStartTime) s.Slope s.PID_Setpoint).1 :=
    envelopeTick_phaseInv _ _ _ _ _ hinv
  by_cases hgate : PROFILE_SAMPLING_TIME ≤ now - s.ProfileSampleTime
  · by_cases hfire : (envelopeTick (getPhase s s.CurrentPhase) s.StartTemp
        (now - s.PhaseStartTime) s.Slope s.PID_Setpoint).1 = 0 ∧
        termCond (getPhase s s.CurrentPhase) s.StartTemp sensor
          (now - s.PhaseStartTime) = true
    · have hiff := termCond_iff_spec (getPhase s s.CurrentPhase) s.StartTemp sensor
        (now - s.PhaseStartTime) (hinvTick hfire.1)
      have hfs := envGate_fire now sensor { s with PID_Input := sensor } hgate hfire
      constructor
      · rw [hcp, hfs]
        rcases startPhase_currentPhase (s.CurrentPhase + 1) now sensor _ with hsp | hsp
        · rw [hsp]
          exact iff_of_true (by omega) ⟨hgate, hfire.1, hiff.mp hfire.2⟩
        · rw [hsp.1]
          exact iff_of_true (by omega) ⟨hgate, hfire.1, hiff.mp hfire.2⟩
      · intro hd
        exact absurd hfire.2 (by rw [termCond_neg_duration _ _ _ _ hd]; simp)
    · have hstate := envGate_nofire now sensor { s with PID_Input := sensor } hgate hfire
      constructor
      · rw [hcp, hstate]
        refine iff_of_false (by simp) ?_
        rintro ⟨_, hz, hspec⟩
        exact hfire ⟨hz, (termCond_iff_spec _ _ _ _ (hinvTick hz)).mpr hspec⟩
      · intro _
        rw [hcp, hstate, hrn, hstate]
        exact ⟨rfl, hrun⟩
  · have hid : envGate now sensor { s with PID_Input := sensor }
        = ({ s with PID_Input := sensor }, []) := envGate_idle now sensor _ hgate
    constructor
    · rw [hcp, hid]
      exact iff_of_false (by simp) (fun h => hgate h.1)
    · intro _
      rw [hcp, hid, hrn, hid]
      exact ⟨rfl, hrun⟩

end VLOven
namespace VLOven

theorem phase_termination_witness :
    (holdState.Running = true ∧ (0:ℤ) ≤ holdState.CurrentPhase ∧
      phaseInv (getPhase holdState holdState.CurrentPhase) holdState.StartTemp
        holdState.Slope) ∧
    (((doCycle 5000 150 0 holdState).1.CurrentPhase ≠ holdState.CurrentPhase ↔
      (PROFILE_SAMPLING_TIME ≤ 5000 - holdState.ProfileSampleTime ∧
        (envelopeTick (getPhase holdState holdState.CurrentPhase) holdState.StartTemp
          (5000 - holdState.PhaseStartTime) holdState.Slope holdState.PID_Setpoint).1 = 0 ∧
        specTermCond (getPhase holdState holdState.CurrentPhase) holdState.StartTemp 150
          (5000 - holdState.PhaseStartTime))) ∧
    ((getPhase holdState holdState.CurrentPhase).Duration < 0 →
      (doCycle 5000 150 0 holdState).1.CurrentPhase = holdState.CurrentPhase ∧
      (doCycle 5000 150 0 holdState).1.Running = true)) :=
  ⟨⟨rfl, by decide, by decide⟩,
   phase_termination holdState 5000 150 0 rfl (by decide) (by decide)⟩

end VLOven
namespace VLOven

theorem memWriteList_get (l : List EEVal) : ∀ (m : Mem) (off i : ℕ),
    memWriteList m off l i
      = if off ≤ i ∧ i - off < l.length then l.getD (i - off) (EEVal.byteV 0)
        else m i := by
  induction l with
  | nil =>
    intro m off i
    simp [memWriteList]
  | cons v vs ih =>
    intro m off i
    rw [memWriteList, ih]
    by_cases h1 : off + 1 ≤ i ∧ i - (off + 1) < vs.length
    · rw [if_pos h1, if_pos ⟨by omega, by simp only [List.length_cons]; omega⟩]
      have h2 : i - off = (i - (off + 1)) + 1 := by omega
      rw [h2, List.getD_cons_succ]
    · rw [if_neg h1]
      unfold memWrite
      by_cases h2 : i = off
      · subst h2
        rw [if_pos rfl, if_pos ⟨le_refl i, by simp⟩, Nat.sub_self,
          List.getD_cons_zero]
      · rw [if_neg h2, if_neg (by simp only [List.length_cons]; omega)]

theorem serializeHeader_length (h : PHeader) (hn : h.Name.length = 20) :
    (serializeHeader h).length = sizeofHeader := by
  simp [serializeHeader, hn, sizeofHeader]

theorem serializePhase_length (q : Phase) (hq : q.Name.length = 11) :
    (serializePhase q).length = sizeofPhase := by
  simp [serializePhase, hq, sizeofPhase]

theorem flatMapPhases_length (l : List Phase) (hl : ∀ q ∈ l, q.Name.length = 11) :
    (l.flatMap serializePhase).length = l.length * sizeofPhase := by
  induction l with
  | nil => simp
  | cons q l ih =>
    rw [List.flatMap_cons, List.length_append,
      serializePhase_length q (hl q (List.mem_cons_self q l)),
      ih (fun r hr => hl r (List.mem_cons_of_mem q hr))]
    simp [List.length_cons]
    ring

theorem recordCells_length (p : ProfileInfo) (hv : validProfile p) :
    (recordCells p).length = sizeofHeader + p.phases.length * sizeofPhase := by
  obtain ⟨hn, -, -, -, hph⟩ := hv
  rw [recordCells, List.length_append, serializeHeader_length _ hn,
    flatMapPhases_length _ hph]

theorem recordCells_length_lb (p : ProfileInfo) (hv : validProfile p) :
    sizeofHeader + sizeofPhase ≤ (recordCells p).length := by
  rw [recordCells_length p hv]
  have := hv.2.2.2.1
  simp only [sizeofHeader, sizeofPhase] at *
  omega

theorem catalogCells_append (ps qs : List ProfileInfo) :
    catalogCells (ps ++ qs) = catalogCells ps ++ catalogCells qs :=
  List.flatMap_append ps qs recordCells

theorem catalogCells_cons (p : ProfileInfo) (ps : List ProfileInfo) :
    catalogCells (p :: ps) = recordCells p ++ catalogCells ps :=
  List.flatMap_cons ..

theorem EEPROMFormat_eq_storeMem (len : ℕ) (m₀ : Mem) :
    EEPROMFormat len m₀ = storeMem len m₀ [] := by
  funext i
  unfold EEPROMFormat storeMem
  rw [memWriteList_get, memWriteList_get]
  simp only [catalogCells, List.flatMap_nil, List.length_nil, List.length_replicate,
    List.length_cons, EEPROM_APPDATA_OFFSET]
  have hsl : signatureCells.length = 9 := rfl
  by_cases h1 : i < 9
  · rw [if_neg (by omega), if_pos ⟨by omega, by rw [hsl]; omega⟩, if_pos h1]
    simp
  · by_cases h2 : i < len
    · rw [if_pos ⟨by omega, by omega⟩, if_neg h1, if_neg (by omega), if_pos h2]
      rw [List.getD_eq_getElem _ _ (by simp; omega)]
      simp
    · rw [if_neg (by omega), if_neg (by rw [hsl]; omega), if_neg h1,
        if_neg (by omega), if_neg h2]

end VLOven
namespace VLOven

theorem storeMem_cat_cell (len : ℕ) (m₀ : Mem) (ps : List ProfileInfo) (i : ℕ)
    (h9 : EEPROM_APPDATA_OFFSET ≤ i)
    (hc : i - EEPROM_APPDATA_OFFSET < (catalogCells ps).length) :
    storeMem len m₀ ps i
      = (catalogCells ps).getD (i - EEPROM_APPDATA_OFFSET) (EEVal.byteV 0) := by
  unfold storeMem
  rw [if_neg (not_lt.mpr h9), if_pos hc]

theorem storeMem_past_cat (len : ℕ) (m₀ : Mem) (ps : List ProfileInfo) (i : ℕ)
    (h9 : EEPROM_APPDATA_OFFSET ≤ i)
    (hc : (catalogCells ps).length ≤ i - EEPROM_APPDATA_OFFSET) (hl : i < len) :
    storeMem len m₀ ps i = EEVal.byteV 0 := by
  unfold storeMem
  rw [if_neg (not_lt.mpr h9), if_neg (not_lt.mpr hc), if_pos hl]

theorem storeMem_record_cell (len : ℕ) (m₀ : Mem) (ps₁ ps₂ : List ProfileInfo)
    (p : ProfileInfo) (j : ℕ) (hj : j < (recordCells p).length) :
    storeMem len m₀ (ps₁ ++ p :: ps₂)
      (EEPROM_APPDATA_OFFSET + (catalogCells ps₁).length + j)
      = (recordCells p).getD j (EEVal.byteV 0) := by
  rw [storeMem_cat_cell len m₀ _ _ (by omega)
    (by
      rw [catalogCells_append, catalogCells_cons, List.length_append,
        List.length_append]
      omega)]
  rw [Nat.add_assoc, Nat.add_sub_cancel_left ..]
  rw [catalogCells_append, catalogCells_cons,
    List.getD_append_right _ _ _ _ (by omega), Nat.add_sub_cancel_left ..,
    List.getD_append _ _ _ _ hj]

end VLOven
namespace VLOven

theorem serializeHeader_getD_name (h : PHeader) (j : ℕ) (hj : j < h.Name.length) :
    (serializeHeader h).getD j (EEVal.byteV 0) = EEVal.byteV (h.Name.getD j 0) := by
  rw [serializeHeader, List.getD_append _ _ _ _ (by simpa using hj),
    List.getD_eq_getElem _ _ (by simpa using hj), List.getElem_map,
    List.getD_eq_getElem _ _ hj]

theorem serializeHeader_getD_cnt (h : PHeader) (hn : h.Name.length = 20) :
    (serializeHeader h).getD 20 (EEVal.byteV 0) = EEVal.intV h.PhasesCount 0 := by
  rw [serializeHeader, List.getD_append_right _ _ _ _ (by simp [hn])]
  simp [hn]

theorem serializePhase_getD_name (q : Phase) (r : ℕ) (hr : r < q.Name.length) :
    (serializePhase q).getD r (EEVal.byteV 0) = EEVal.byteV (q.Name.getD r 0) := by
  rw [serializePhase, List.getD_append _ _ _ _ (by simp; omega),
    List.getD_append _ _ _ _ (by simp; omega),
    List.getD_append _ _ _ _ (by simpa using hr),
    List.getD_eq_getElem _ _ (by simpa using hr), List.getElem_map,
    List.getD_eq_getElem _ _ hr]

theorem serializePhase_getD_end (q : Phase) (hq : q.Name.length = 11) :
    (serializePhase q).getD 11 (EEVal.byteV 0) = EEVal.ratV q.EndTemp 0 := by
  rw [serializePhase, List.getD_append _ _ _ _ (by simp [hq]),
    List.getD_append _ _ _ _ (by simp [hq]),
    List.getD_append_right _ _ _ _ (by simp [hq])]
  simp [hq]

theorem serializePhase_getD_slope (q : Phase) (hq : q.Name.length = 11) :
    (serializePhase q).getD 15 (EEVal.byteV 0) = EEVal.ratV q.Slope 0 := by
  rw [serializePhase, List.getD_append _ _ _ _ (by simp [hq]),
    List.getD_append_right _ _ _ _ (by simp [hq])]
  simp [hq]

theorem serializePhase_getD_dur (q : Phase) (hq : q.Name.length = 11) :
    (serializePhase q).getD 19 (EEVal.byteV 0) = EEVal.intV q.Duration 0 := by
  rw [serializePhase, List.getD_append_right _ _ _ _ (by simp [hq])]
  simp [hq]

theorem flatMap_serialize_getD (l : List Phase) (hl : ∀ q ∈ l, q.Name.length = 11) :
    ∀ (k r : ℕ), k < l.length → r < sizeofPhase →
    (l.flatMap serializePhase).getD (k * sizeofPhase + r) (EEVal.byteV 0)
      = (serializePhase (l.getD k zeroPhase)).getD r (EEVal.byteV 0) := by
  induction l with
  | nil => intro k r hk _; exact absurd hk (by simp)
  | cons q l ih =>
    intro k r hk hr
    have hq := hl q (List.mem_cons_self q l)
    match k with
    | 0 =>
      rw [List.flatMap_cons, Nat.zero_mul, Nat.zero_add,
        List.getD_append _ _ _ _ (by rw [serializePhase_length q hq]; exact hr),
        List.getD_cons_zero]
    | k + 1 =>
      rw [List.flatMap_cons,
        List.getD_append_right _ _ _ _
          (by rw [serializePhase_length q hq]; simp [sizeofPhase]; omega),
        serializePhase_length q hq,
        show (k + 1) * sizeofPhase + r - sizeofPhase = k * sizeofPhase + r by
          simp [sizeofPhase]; omega,
        List.getD_cons_succ]
      exact ih (fun x hx => hl x (List.mem_cons_of_mem q hx)) k r
        (by simpa using hk) hr

end VLOven
namespace VLOven

theorem record_getD_header (p : ProfileInfo) (hn : p.Header.Name.length = 20)
    (j : ℕ) (hj : j < sizeofHeader) :
    (recordCells p).getD j (EEVal.byteV 0)
      = (serializeHeader p.Header).getD j (EEVal.byteV 0) := by
  rw [recordCells,
    List.getD_append _ _ _ _ (by rw [serializeHeader_length _ hn]; exact hj)]

theorem record_getD_phases (p : ProfileInfo) (hn : p.Header.Name.length = 20)
    (j : ℕ) :
    (recordCells p).getD (sizeofHeader + j) (EEVal.byteV 0)
      = (p.phases.flatMap serializePhase).getD j (EEVal.byteV 0) := by
  rw [recordCells,
    List.getD_append_right _ _ _ _ (by rw [serializeHeader_length _ hn]; omega),
    serializeHeader_length _ hn, Nat.add_sub_cancel_left ..]

theorem getHeader_storeMem (len : ℕ) (m₀ : Mem) (ps₁ ps₂ : List ProfileInfo)
    (p : ProfileInfo) (hv : validProfile p) :
    getHeader (storeMem len m₀ (ps₁ ++ p :: ps₂))
      (EEPROM_APPDATA_OFFSET + (catalogCells ps₁).length) = p.Header := by
  have hn := hv.1
  have hlb := recordCells_length_lb p hv
  unfold getHeader
  have hname : (List.range 20).map
      (fun j => readByte (storeMem len m₀ (ps₁ ++ p :: ps₂)
        (EEPROM_APPDATA_OFFSET + (catalogCells ps₁).length + j))) = p.Header.Name := by
    apply List.ext_getElem
    · simp [hn]
    · intro k hk1 hk2
      simp only [List.getElem_map, List.getElem_range]
      have hk20 : k < 20 := by simpa using hk1
      rw [storeMem_record_cell len m₀ ps₁ ps₂ p k
          (by simp only [sizeofHeader, sizeofPhase] at hlb; omega),
        record_getD_header p hn k (by simp [sizeofHeader]; omega),
        serializeHeader_getD_name p.Header k (by omega),
        List.getD_eq_getElem _ _ (by omega)]
      rfl
  have hcnt : readInt (storeMem len m₀ (ps₁ ++ p :: ps₂)
      (EEPROM_APPDATA_OFFSET + (catalogCells ps₁).length + 20)) = p.Header.PhasesCount := by
    rw [storeMem_record_cell len m₀ ps₁ ps₂ p 20
        (by simp only [sizeofHeader, sizeofPhase] at hlb; omega),
      record_getD_header p hn 20 (by simp [sizeofHeader]),
      serializeHeader_getD_cnt p.Header hn]
    rfl
  rw [hname, hcnt]

end VLOven
namespace VLOven

theorem getStoredPhase_storeMem (len : ℕ) (m₀ : Mem) (ps₁ ps₂ : List ProfileInfo)
    (p : ProfileInfo) (hv : validProfile p) (k : ℕ) (hk : k < p.phases.length) :
    getStoredPhase (storeMem len m₀ (ps₁ ++ p :: ps₂))
      (EEPROM_APPDATA_OFFSET + (catalogCells ps₁).length + sizeofHeader + k * sizeofPhase)
      = p.phases.getD k zeroPhase := by
  have hn := hv.1
  have hph := hv.2.2.2.2
  have hq : (p.phases.getD k zeroPhase).Name.length = 11 := by
    rw [List.getD_eq_getElem _ _ hk]
    exact hph _ (List.getElem_mem hk)
  have hrl : (recordCells p).length
      = sizeofHeader + p.phases.length * sizeofPhase := recordCells_length p hv
  have hcell : ∀ (r : ℕ), r < sizeofPhase →
      storeMem len m₀ (ps₁ ++ p :: ps₂)
        (EEPROM_APPDATA_OFFSET + (catalogCells ps₁).length + sizeofHeader
          + k * sizeofPhase + r)
      = (serializePhase (p.phases.getD k zeroPhase)).getD r (EEVal.byteV 0) := by
    intro r hr
    rw [show EEPROM_APPDATA_OFFSET + (catalogCells ps₁).length + sizeofHeader
          + k * sizeofPhase + r
        = EEPROM_APPDATA_OFFSET + (catalogCells ps₁).length
          + (sizeofHeader + (k * sizeofPhase + r)) from by omega,
      storeMem_record_cell len m₀ ps₁ ps₂ p _
        (by rw [hrl]; simp only [sizeofPhase] at hr ⊢; nlinarith [hk]),
      record_getD_phases p hn _,
      flatMap_serialize_getD p.phases hph k r hk hr]
  unfold getStoredPhase
  have hname : (List.range 11).map
      (fun j => readByte (storeMem len m₀ (ps₁ ++ p :: ps₂)
        (EEPROM_APPDATA_OFFSET + (catalogCells ps₁).length + sizeofHeader
          + k * sizeofPhase + j)))
      = (p.phases.getD k zeroPhase).Name := by
    apply List.ext_getElem
    · simp only [List.length_map, List.length_range]
      exact hq.symm
    · intro j hj1 hj2
      simp only [List.getElem_map, List.getElem_range]
      have hj11 : j < 11 := by simpa using hj1
      rw [hcell j (by simp [sizeofPhase]; omega),
        serializePhase_getD_name _ j (by omega),
        List.getD_eq_getElem _ _ (by omega)]
      rfl
  rw [hname,
    hcell 11 (by simp [sizeofPhase]),
    hcell 15 (by simp [sizeofPhase]),
    hcell 19 (by simp [sizeofPhase]),
    serializePhase_getD_end _ hq, serializePhase_getD_slope _ hq,
    serializePhase_getD_dur _ hq]
  rfl

end VLOven
namespace VLOven

theorem getHeader_headD (m : Mem) (off : ℕ) :
    (getHeader m off).Name.headD 0 = readByte (m (off + 0)) := rfl

theorem length_le_catalog (ps : List ProfileInfo)
    (hv : ∀ q ∈ ps, validProfile q) : ps.length ≤ (catalogCells ps).length := by
  induction ps with
  | nil => simp
  | cons q ps ih =>
    rw [catalogCells_cons, List.length_append, List.length_cons]
    have h1 := recordCells_length_lb q (hv q (List.mem_cons_self q ps))
    have h2 := ih (fun x hx => hv x (List.mem_cons_of_mem q hx))
    simp only [sizeofHeader, sizeofPhase] at h1
    omega

theorem catalogCells_nil : catalogCells [] = [] := rfl

theorem sentinel_headD (len : ℕ) (m₀ : Mem) (ps : List ProfileInfo)
    (hlt : EEPROM_APPDATA_OFFSET + (catalogCells ps).length < len) :
    (getHeader (storeMem len m₀ ps)
      (EEPROM_APPDATA_OFFSET + (catalogCells ps).length)).Name.headD 0 = 0 := by
  rw [getHeader_headD, Nat.add_zero,
    storeMem_past_cat len m₀ ps _ (by omega) (by omega) hlt]
  rfl

theorem countAux_spec (len : ℕ) (m₀ : Mem) :
    ∀ (qs ps₁ : List ProfileInfo) (fuel : ℕ),
      (∀ q ∈ ps₁ ++ qs, validProfile q) →
      EEPROM_APPDATA_OFFSET + (catalogCells (ps₁ ++ qs)).length ≤ len →
      qs.length < fuel →
      countAux len (storeMem len m₀ (ps₁ ++ qs))
        (EEPROM_APPDATA_OFFSET + (catalogCells ps₁).length) fuel = qs.length := by
  intro qs
  induction qs with
  | nil =>
    intro ps₁ fuel hv hfit hfuel
    match fuel with
    | fuel + 1 =>
      rw [List.append_nil] at hv hfit ⊢
      rw [countAux]
      by_cases hend : EEPROM_APPDATA_OFFSET + (catalogCells ps₁).length
          < len - sizeofHeader
      · rw [if_pos hend, if_pos (sentinel_headD len m₀ ps₁
          (by simp only [sizeofHeader] at hend; omega))]
        rfl
      · rw [if_neg hend]
        rfl
  | cons q qs ih =>
    intro ps₁ fuel hv hfit hfuel
    match fuel with
    | fuel + 1 =>
      have hvq : validProfile q := hv q (by simp)
      have hrq := recordCells_length_lb q hvq
      have hrl := recordCells_length q hvq
      have hc1 : (catalogCells (ps₁ ++ q :: qs)).length
          = (catalogCells ps₁).length + (recordCells q).length
            + (catalogCells qs).length := by
        rw [catalogCells_append, catalogCells_cons]
        simp [List.length_append]
        omega
      have hc2 : (catalogCells (ps₁ ++ [q])).length
          = (catalogCells ps₁).length + (recordCells q).length := by
        rw [catalogCells_append, List.length_append, catalogCells_cons,
          catalogCells_nil, List.append_nil]
      rw [countAux, if_pos (by
          simp only [sizeofHeader, sizeofPhase, EEPROM_APPDATA_OFFSET] at hrq hc1 hfit ⊢
          omega),
        getHeader_storeMem len m₀ ps₁ qs q hvq, if_neg hvq.2.1]
      have hadv : EEPROM_APPDATA_OFFSET + (catalogCells ps₁).length + sizeofHeader
          + q.Header.PhasesCount.toNat * sizeofPhase
          = EEPROM_APPDATA_OFFSET + (catalogCells (ps₁ ++ [q])).length := by
        rw [hvq.2.2.1, show ((q.phases.length : ℤ)).toNat = q.phases.length from rfl,
          hc2, hrl]
        simp only [sizeofHeader, sizeofPhase, EEPROM_APPDATA_OFFSET]
        omega
      rw [hadv]
      have hmem : ps₁ ++ q :: qs = (ps₁ ++ [q]) ++ qs := by simp
      rw [hmem] at hv hfit ⊢
      rw [ih (ps₁ ++ [q]) fuel hv hfit (by simpa using Nat.lt_of_succ_lt_succ hfuel)]
      simp

end VLOven
namespace VLOven

theorem findFreeAux_spec (len : ℕ) (m₀ : Mem) :
    ∀ (qs ps₁ : List ProfileInfo) (fuel : ℕ),
      (∀ q ∈ ps₁ ++ qs, validProfile q) →
      EEPROM_APPDATA_OFFSET + (catalogCells (ps₁ ++ qs)).length + sizeofHeader
        < len →
      qs.length < fuel →
      findFreeAux len (storeMem len m₀ (ps₁ ++ qs))
        (EEPROM_APPDATA_OFFSET + (catalogCells ps₁).length) fuel
      = ((EEPROM_APPDATA_OFFSET + (catalogCells (ps₁ ++ qs)).length : ℕ) : ℤ) := by
  intro qs
  induction qs with
  | nil =>
    intro ps₁ fuel hv hroom hfuel
    match fuel with
    | fuel + 1 =>
      rw [List.append_nil] at hv hroom ⊢
      rw [findFreeAux,
        if_pos (by simp only [sizeofHeader, EEPROM_APPDATA_OFFSET] at hroom ⊢; omega),
        if_pos (sentinel_headD len m₀ ps₁
          (by simp only [sizeofHeader, EEPROM_APPDATA_OFFSET] at hroom ⊢; omega))]
  | cons q qs ih =>
    intro ps₁ fuel hv hroom hfuel
    match fuel with
    | fuel + 1 =>
      have hvq : validProfile q := hv q (by simp)
      have hrq := recordCells_length_lb q hvq
      have hrl := recordCells_length q hvq
      have hc1 : (catalogCells (ps₁ ++ q :: qs)).length
          = (catalogCells ps₁).length + (recordCells q).length
            + (catalogCells qs).length := by
        rw [catalogCells_append, catalogCells_cons]
        simp [List.length_append]
        omega
      have hc2 : (catalogCells (ps₁ ++ [q])).length
          = (catalogCells ps₁).length + (recordCells q).length := by
        rw [catalogCells_append, List.length_append, catalogCells_cons,
          catalogCells_nil, List.append_nil]
      rw [findFreeAux, if_pos (by
          simp only [sizeofHeader, sizeofPhase, EEPROM_APPDATA_OFFSET] at hrq hc1 hroom ⊢
          omega),
        getHeader_storeMem len m₀ ps₁ qs q hvq, if_neg hvq.2.1]
      have hadv : EEPROM_APPDATA_OFFSET + (catalogCells ps₁).length + sizeofHeader
          + q.Header.PhasesCount.toNat * sizeofPhase
          = EEPROM_APPDATA_OFFSET + (catalogCells (ps₁ ++ [q])).length := by
        rw [hvq.2.2.1, show ((q.phases.length : ℤ)).toNat = q.phases.length from rfl,
          hc2, hrl]
        simp only [sizeofHeader, sizeofPhase, EEPROM_APPDATA_OFFSET]
        omega
      rw [hadv]
      have hmem : ps₁ ++ q :: qs = (ps₁ ++ [q]) ++ qs := by simp
      rw [hmem] at hv hroom ⊢
      exact ih (ps₁ ++ [q]) fuel hv hroom (by simpa using Nat.lt_of_succ_lt_succ hfuel)

theorem loadHeaderAux_spec (len : ℕ) (m₀ : Mem) :
    ∀ (qs ps₁ : List ProfileInfo) (idx fuel : ℕ),
      (∀ q ∈ ps₁ ++ qs, validProfile q) →
      EEPROM_APPDATA_OFFSET + (catalogCells (ps₁ ++ qs)).length ≤ len →
      idx < qs.length →
      qs.length ≤ fuel →
      loadHeaderAux len (storeMem len m₀ (ps₁ ++ qs))
        (EEPROM_APPDATA_OFFSET + (catalogCells ps₁).length) idx fuel
      = some ((qs.getD idx ⟨⟨List.replicate 20 0, 0⟩, []⟩).Header,
          EEPROM_APPDATA_OFFSET + (catalogCells (ps₁ ++ qs.take idx)).length) := by
  intro qs
  induction qs with
  | nil =>
    intro ps₁ idx fuel hv hfit hidx hfuel
    exact absurd hidx (by simp)
  | cons q qs ih =>
    intro ps₁ idx fuel hv hfit hidx hfuel
    match fuel with
    | fuel + 1 =>
      have hvq : validProfile q := hv q (by simp)
      have hrq := recordCells_length_lb q hvq
      have hrl := recordCells_length q hvq
      have hc1 : (catalogCells (ps₁ ++ q :: qs)).length
          = (catalogCells ps₁).length + (recordCells q).length
            + (catalogCells qs).length := by
        rw [catalogCells_append, catalogCells_cons]
        simp [List.length_append]
        omega
      have hc2 : (catalogCells (ps₁ ++ [q])).length
          = (catalogCells ps₁).length + (recordCells q).length := by
        rw [catalogCells_append, List.length_append, catalogCells_cons,
          catalogCells_nil, List.append_nil]
      rw [loadHeaderAux, if_pos (by
          simp only [sizeofHeader, sizeofPhase, EEPROM_APPDATA_OFFSET] at hrq hc1 hfit ⊢
          omega),
        getHeader_storeMem len m₀ ps₁ qs q hvq, if_neg hvq.2.1]
      match idx with
      | 0 =>
        rw [if_pos rfl]
        simp
      | idx + 1 =>
        rw [if_neg (by omega)]
        have hadv : EEPROM_APPDATA_OFFSET + (catalogCells ps₁).length + sizeofHeader
            + q.Header.PhasesCount.toNat * sizeofPhase
            = EEPROM_APPDATA_OFFSET + (catalogCells (ps₁ ++ [q])).length := by
          rw [hvq.2.2.1, show ((q.phases.length : ℤ)).toNat = q.phases.length from rfl,
            hc2, hrl]
          simp only [sizeofHeader, sizeofPhase, EEPROM_APPDATA_OFFSET]
          omega
        rw [hadv, show idx + 1 - 1 = idx from rfl]
        have hmem : ps₁ ++ q :: qs = (ps₁ ++ [q]) ++ qs := by simp
        rw [hmem] at hv hfit ⊢
        rw [ih (ps₁ ++ [q]) idx fuel hv hfit (by simpa using hidx)
          (by simpa using Nat.le_of_succ_le_succ hfuel)]
        simp [List.take_succ_cons]

end VLOven
namespace VLOven

theorem GetProfilesCount_storeMem (len : ℕ) (m₀ : Mem) (ps : List ProfileInfo)
    (hv : ∀ q ∈ ps, validProfile q)
    (hfit : EEPROM_APPDATA_OFFSET + (catalogCells ps).length ≤ len) :
    GetProfilesCount len (storeMem len m₀ ps) = ps.length := by
  have hle := length_le_catalog ps hv
  rw [GetProfilesCount,
    show EEPROM_APPDATA_OFFSET
      = EEPROM_APPDATA_OFFSET + (catalogCells ([] : List ProfileInfo)).length from by
        rw [catalogCells_nil]; rfl,
    show storeMem len m₀ ps = storeMem len m₀ ([] ++ ps) from by rw [List.nil_append]]
  exact countAux_spec len m₀ ps [] len (by simpa using hv) (by simpa using hfit)
    (by simp only [EEPROM_APPDATA_OFFSET] at hfit; omega)

theorem FindFreeEEPROMStart_storeMem (len : ℕ) (m₀ : Mem) (ps : List ProfileInfo)
    (hv : ∀ q ∈ ps, validProfile q)
    (hroom : EEPROM_APPDATA_OFFSET + (catalogCells ps).length + sizeofHeader < len) :
    FindFreeEEPROMStart len (storeMem len m₀ ps)
      = ((EEPROM_APPDATA_OFFSET + (catalogCells ps).length : ℕ) : ℤ) := by
  have hle := length_le_catalog ps hv
  rw [FindFreeEEPROMStart,
    show EEPROM_APPDATA_OFFSET
      = EEPROM_APPDATA_OFFSET + (catalogCells ([] : List ProfileInfo)).length from by
        rw [catalogCells_nil]; rfl,
    show storeMem len m₀ ps = storeMem len m₀ ([] ++ ps) from by rw [List.nil_append]]
  exact findFreeAux_spec len m₀ ps [] len (by simpa using hv) (by simpa using hroom)
    (by simp only [EEPROM_APPDATA_OFFSET, sizeofHeader] at hroom; omega)

theorem LoadProfile_storeMem (len : ℕ) (m₀ : Mem) (ps : List ProfileInfo)
    (hv : ∀ q ∈ ps, validProfile q)
    (hfit : EEPROM_APPDATA_OFFSET + (catalogCells ps).length ≤ len)
    (k : ℕ) (hk : k < ps.length) :
    LoadProfile len (storeMem len m₀ ps) (k : ℤ)
      = some (ps.getD k ⟨⟨List.replicate 20 0, 0⟩, []⟩) := by
  have hle := length_le_catalog ps hv
  have hsplit : ps = ps.take k ++ ps.getD k ⟨⟨List.replicate 20 0, 0⟩, []⟩ :: ps.drop (k + 1) := by
    rw [List.getD_eq_getElem _ _ hk, ← List.drop_eq_getElem_cons hk,
      List.take_append_drop]
  have hload := loadHeaderAux_spec len m₀ ps [] k len (by simpa using hv)
    (by simpa using hfit) hk
    (by simp only [EEPROM_APPDATA_OFFSET] at hfit; omega)
  rw [LoadProfile, if_neg (by omega), LoadProfileHeader]
  rw [show (k : ℤ).toNat = k from rfl]
  rw [show EEPROM_APPDATA_OFFSET
      = EEPROM_APPDATA_OFFSET + (catalogCells ([] : List ProfileInfo)).length from by
        rw [catalogCells_nil]; rfl,
    show storeMem len m₀ ps = storeMem len m₀ ([] ++ ps) from by rw [List.nil_append]]
  rw [show ([] : List ProfileInfo) ++ ps = ps from List.nil_append ps] at hload ⊢
  rw [hload]
  simp only [List.nil_append]
  rw [if_pos (by simp only [EEPROM_APPDATA_OFFSET]; omega)]
  have hq : validProfile (ps.getD k ⟨⟨List.replicate 20 0, 0⟩, []⟩) := by
    rw [List.getD_eq_getElem _ _ hk]
    exact hv _ (List.getElem_mem hk)
  have hphases : (List.range
      (ps.getD k ⟨⟨List.replicate 20 0, 0⟩, []⟩).Header.PhasesCount.toNat).map
      (fun j => getStoredPhase (storeMem len m₀ ps)
        (EEPROM_APPDATA_OFFSET + (catalogCells (ps.take k)).length + sizeofHeader
          + j * sizeofPhase))
      = (ps.getD k ⟨⟨List.replicate 20 0, 0⟩, []⟩).phases := by
    apply List.ext_getElem
    · simp only [List.length_map, List.length_range]
      rw [hq.2.2.1]
      rfl
    · intro j hj1 hj2
      simp only [List.getElem_map, List.getElem_range]
      have hjlt : j < (ps.getD k ⟨⟨List.replicate 20 0, 0⟩, []⟩).phases.length := by
        have hcnt := hq.2.2.1
        simp only [List.length_range, hcnt] at hj1
        simpa using hj1
      rw [show storeMem len m₀ ps
          = storeMem len m₀ (ps.take k ++ ps.getD k ⟨⟨List.replicate 20 0, 0⟩, []⟩
            :: ps.drop (k + 1)) from by rw [← hsplit]]
      rw [getStoredPhase_storeMem len m₀ _ _ _ hq j hjlt]
      rw [List.getD_eq_getElem _ _ hjlt]
  rw [hphases]

end VLOven
namespace VLOven

theorem catalogCells_singleton (p : ProfileInfo) :
    catalogCells [p] = recordCells p := by
  rw [catalogCells_cons, catalogCells_nil, List.append_nil]

theorem storeMem_append_lower (len : ℕ) (m₀ : Mem) (ps : List ProfileInfo)
    (p : ProfileInfo) (i : ℕ)
    (hi : i < EEPROM_APPDATA_OFFSET + (catalogCells ps).length) :
    storeMem len m₀ (ps ++ [p]) i = storeMem len m₀ ps i := by
  have hoff : EEPROM_APPDATA_OFFSET = 9 := rfl
  unfold storeMem
  by_cases h9 : i < EEPROM_APPDATA_OFFSET
  · rw [if_pos h9, if_pos h9]
  · have hc : i - EEPROM_APPDATA_OFFSET < (catalogCells ps).length := by omega
    rw [if_neg h9, if_neg h9, if_pos hc,
      if_pos (by rw [catalogCells_append, List.length_append]; omega),
      catalogCells_append, List.getD_append _ _ _ _ hc]

theorem EEPROMAppendProfile_storeMem (len : ℕ) (m₀ : Mem) (ps : List ProfileInfo)
    (p : ProfileInfo) (hv : ∀ q ∈ ps, validProfile q) (hvp : validProfile p)
    (hroom : EEPROM_APPDATA_OFFSET + (catalogCells ps).length + sizeofHeader < len) :
    EEPROMAppendProfile len (storeMem len m₀ ps) p
      = (storeMem len m₀ (ps ++ [p]), true) := by
  have hoff : EEPROM_APPDATA_OFFSET = 9 := rfl
  have hsz : sizeofHeader = 22 := rfl
  have hsp : sizeofPhase = 21 := rfl
  have hsh := serializeHeader_length p.Header hvp.1
  have hfl := flatMapPhases_length p.phases hvp.2.2.2.2
  have hrl := recordCells_length p hvp
  rw [hsp] at hfl hrl
  have hcs : catalogCells (ps ++ [p]) = catalogCells ps ++ recordCells p := by
    rw [catalogCells_append, catalogCells_singleton]
  have htake : (p.phases.flatMap serializePhase).take
      (p.Header.PhasesCount.toNat * sizeofPhase) = p.phases.flatMap serializePhase := by
    rw [hvp.2.2.1, show ((p.phases.length : ℤ)).toNat = p.phases.length from rfl,
      hsp, ← hfl, List.take_length]
  simp only [EEPROMAppendProfile]
  rw [FindFreeEEPROMStart_storeMem len m₀ ps hv hroom]
  rw [if_neg (by omega)]
  rw [show ((EEPROM_APPDATA_OFFSET + (catalogCells ps).length : ℕ) : ℤ).toNat
      = EEPROM_APPDATA_OFFSET + (catalogCells ps).length from rfl]
  rw [htake, Prod.mk.injEq]
  refine ⟨?_, rfl⟩
  funext i
  rw [memWriteList_get, memWriteList_get]
  by_cases hC : i < EEPROM_APPDATA_OFFSET + (catalogCells ps).length
  · rw [if_neg (by omega), if_neg (by omega)]
    exact (storeMem_append_lower len m₀ ps p i hC).symm
  · by_cases hB : i - (EEPROM_APPDATA_OFFSET + (catalogCells ps).length) < sizeofHeader
    · rw [if_neg (by rw [hfl]; omega),
        if_pos ⟨by omega, by rw [hsh]; omega⟩,
        storeMem_cat_cell len m₀ (ps ++ [p]) i (by omega)
          (by rw [hcs, List.length_append, hrl]; omega),
        hcs, List.getD_append_right _ _ _ _ (by omega),
        show i - EEPROM_APPDATA_OFFSET - (catalogCells ps).length
          = i - (EEPROM_APPDATA_OFFSET + (catalogCells ps).length) from by omega,
        record_getD_header p hvp.1 _ (by omega)]
    · by_cases hA : i - (EEPROM_APPDATA_OFFSET + (catalogCells ps).length + sizeofHeader)
          < (p.phases.flatMap serializePhase).length
      · rw [if_pos ⟨by omega, hA⟩,
          storeMem_cat_cell len m₀ (ps ++ [p]) i (by omega)
            (by rw [hfl] at hA; rw [hcs, List.length_append, hrl]; omega),
          hcs, List.getD_append_right _ _ _ _ (by omega),
          show i - EEPROM_APPDATA_OFFSET - (catalogCells ps).length
            = sizeofHeader + (i - (EEPROM_APPDATA_OFFSET
              + (catalogCells ps).length + sizeofHeader)) from by rw [hfl] at hA; omega,
          record_getD_phases p hvp.1]
      · rw [if_neg (by rw [hfl] at hA ⊢; omega), if_neg (by rw [hsh]; omega)]
        unfold storeMem
        have h9 : ¬ i < EEPROM_APPDATA_OFFSET := by omega
        have hc1 : ¬ i - EEPROM_APPDATA_OFFSET < (catalogCells ps).length := by omega
        have hc2 : ¬ i - EEPROM_APPDATA_OFFSET < (catalogCells (ps ++ [p])).length := by
          rw [hfl] at hA
          rw [hcs, List.length_append, hrl]
          omega
        rw [if_neg h9, if_neg h9, if_neg hc1, if_neg hc2]

end VLOven
namespace VLOven

/-- C8: on every store state reachable by `format` followed by appends
(`storeMem`), with the catalog not full (the appended record still fits
below `EEPROM.length()`, which makes `FindFreeEEPROMStart` succeed),
appending a valid profile: leaves `GetProfilesCount` at `old_count + 1`,
makes `LoadProfile(old_count)` return the appended profile cell-for-cell,
and leaves every prior catalog entry's `LoadProfile` result unchanged. -/
theorem append_roundtrip (len : ℕ) (m₀ : Mem) (ps : List ProfileInfo)
    (p : ProfileInfo)
    (hv : ∀ q ∈ ps, validProfile q) (hvp : validProfile p)
    (hfit : EEPROM_APPDATA_OFFSET + (catalogCells (ps ++ [p])).length ≤ len) :
    GetProfilesCount len (storeMem len m₀ ps) = ps.length ∧
    (EEPROMAppendProfile len (storeMem len m₀ ps) p).1
      = storeMem len m₀ (ps ++ [p]) ∧
    (EEPROMAppendProfile len (storeMem len m₀ ps) p).2 = true ∧
    GetProfilesCount len (EEPROMAppendProfile len (storeMem len m₀ ps) p).1
      = ps.length + 1 ∧
    LoadProfile len (EEPROMAppendProfile len (storeMem len m₀ ps) p).1
      (ps.length : ℤ) = some p ∧
    (∀ k : ℕ, k < ps.length →
      LoadProfile len (EEPROMAppendProfile len (storeMem len m₀ ps) p).1 (k : ℤ)
        = LoadProfile len (storeMem len m₀ ps) (k : ℤ)) := by
  have hoff : EEPROM_APPDATA_OFFSET = 9 := rfl
  have hsz : sizeofHeader = 22 := rfl
  have hsp : sizeofPhase = 21 := rfl
  have hv' : ∀ q ∈ ps ++ [p], validProfile q := by
    intro q hq
    rcases List.mem_append.mp hq with h | h
    · exact hv q h
    · rw [List.mem_singleton.mp h]
      exact hvp
  have hlb := recordCells_length_lb p hvp
  have hcs : (catalogCells (ps ++ [p])).length
      = (catalogCells ps).length + (recordCells p).length := by
    rw [catalogCells_append, catalogCells_singleton, List.length_append]
  have hroom : EEPROM_APPDATA_OFFSET + (catalogCells ps).length + sizeofHeader
      < len := by omega
  have hfitps : EEPROM_APPDATA_OFFSET + (catalogCells ps).length ≤ len := by omega
  have happ := EEPROMAppendProfile_storeMem len m₀ ps p hv hvp hroom
  refine ⟨GetProfilesCount_storeMem len m₀ ps hv hfitps, by rw [happ],
    by rw [happ], ?_, ?_, ?_⟩
  · rw [happ]
    rw [show (storeMem len m₀ (ps ++ [p]), true).1 = storeMem len m₀ (ps ++ [p])
      from rfl]
    rw [GetProfilesCount_storeMem len m₀ (ps ++ [p]) hv' hfit]
    simp
  · rw [happ,
      show (storeMem len m₀ (ps ++ [p]), true).1 = storeMem len m₀ (ps ++ [p])
        from rfl,
      LoadProfile_storeMem len m₀ (ps ++ [p]) hv' hfit ps.length (by simp),
      List.getD_append_right _ _ _ _ (le_refl _), Nat.sub_self,
      List.getD_cons_zero]
  · intro k hk
    rw [happ,
      show (storeMem len m₀ (ps ++ [p]), true).1 = storeMem len m₀ (ps ++ [p])
        from rfl,
      LoadProfile_storeMem len m₀ (ps ++ [p]) hv' hfit k (by simp; omega),
      LoadProfile_storeMem len m₀ ps hv hfitps k hk,
      List.getD_append _ _ _ _ hk]

end VLOven
namespace VLOven

theorem append_roundtrip_witness :
    ((∀ q ∈ ([] : List ProfileInfo), validProfile q) ∧
      validProfile ovenControllerProfile ∧
      EEPROM_APPDATA_OFFSET
        + (catalogCells ([] ++ [ovenControllerProfile])).length ≤ 1024) ∧
    (GetProfilesCount 1024 (storeMem 1024 (fun _ => EEVal.byteV 0) []) = 0 ∧
    (EEPROMAppendProfile 1024 (storeMem 1024 (fun _ => EEVal.byteV 0) [])
      ovenControllerProfile).1
      = storeMem 1024 (fun _ => EEVal.byteV 0) ([] ++ [ovenControllerProfile]) ∧
    (EEPROMAppendProfile 1024 (storeMem 1024 (fun _ => EEVal.byteV 0) [])
      ovenControllerProfile).2 = true ∧
    GetProfilesCount 1024 (EEPROMAppendProfile 1024
      (storeMem 1024 (fun _ => EEVal.byteV 0) []) ovenControllerProfile).1 = 0 + 1 ∧
    LoadProfile 1024 (EEPROMAppendProfile 1024
      (storeMem 1024 (fun _ => EEVal.byteV 0) []) ovenControllerProfile).1
      ((0 : ℕ) : ℤ) = some ovenControllerProfile ∧
    (∀ k : ℕ, k < (0:ℕ) →
      LoadProfile 1024 (EEPROMAppendProfile 1024
        (storeMem 1024 (fun _ => EEVal.byteV 0) []) ovenControllerProfile).1 (k : ℤ)
        = LoadProfile 1024 (storeMem 1024 (fun _ => EEVal.byteV 0) []) (k : ℤ))) :=
  ⟨⟨by simp, by decide, by decide⟩,
   append_roundtrip 1024 (fun _ => EEVal.byteV 0) [] ovenControllerProfile
     (by simp) (by decide) (by decide)⟩

end VLOven
namespace VLOven

set_option maxRecDepth 40000 in
/-- C7: reformatting the store and registering the defaults yields a
catalog of exactly two profiles: `"Oven Controller"` with the 2 phases
Heating → 50 °C @ 2 °C/s and Hot (slope 0, duration −1), and
`"PbFree - Reflow"` with 8 phases whose end temperatures are
50, 150, 200, 217, 245, 217, 100, 50 °C with the listed slopes and hold
durations — but the sixth phase is stored with the name `"Reflow-1"`,
identical to the fifth, not the `"Reflow-2"` the claim (and the source's
own inline comment) states. -/
theorem default_catalog (m₀ : Mem) :
    GetProfilesCount 1024
      (EEPROMRegisterDefaultProfiles 1024 (EEPROMFormat 1024 m₀)) = 2 ∧
    LoadProfile 1024
      (EEPROMRegisterDefaultProfiles 1024 (EEPROMFormat 1024 m₀)) 0
      = some ovenControllerProfile ∧
    LoadProfile 1024
      (EEPROMRegisterDefaultProfiles 1024 (EEPROMFormat 1024 m₀)) 1
      = some pbfreeReflowProfile ∧
    (pbfreeReflowProfile.phases.getD 5 zeroPhase).Name = strBytes "Reflow-1" 11 ∧
    (pbfreeReflowProfile.phases.getD 5 zeroPhase).Name ≠ strBytes "Reflow-2" 11 ∧
    (pbfreeReflowProfile.phases.getD 4 zeroPhase).Name
      = (pbfreeReflowProfile.phases.getD 5 zeroPhase).Name := by
  have hreg : EEPROMRegisterDefaultProfiles 1024 (EEPROMFormat 1024 m₀)
      = storeMem 1024 m₀ [ovenControllerProfile, pbfreeReflowProfile] := by
    rw [EEPROMRegisterDefaultProfiles, EEPROMFormat_eq_storeMem,
      EEPROMAppendProfile_storeMem 1024 m₀ [] ovenControllerProfile
        (by simp) (by decide) (by decide)]
    rw [show ((storeMem 1024 m₀ ([] ++ [ovenControllerProfile]), true).1)
        = storeMem 1024 m₀ [ovenControllerProfile] from rfl]
    rw [EEPROMAppendProfile_storeMem 1024 m₀ [ovenControllerProfile]
        pbfreeReflowProfile (by decide) (by decide) (by decide)]
    rfl
  rw [hreg]
  refine ⟨?_, ?_, ?_, by decide, by decide, by decide⟩
  · exact GetProfilesCount_storeMem 1024 m₀ _ (by decide) (by decide)
  · rw [show (0 : ℤ) = ((0 : ℕ) : ℤ) from rfl,
      LoadProfile_storeMem 1024 m₀ _ (by decide) (by decide) 0 (by decide)]
    rfl
  · rw [show (1 : ℤ) = ((1 : ℕ) : ℤ) from rfl,
      LoadProfile_storeMem 1024 m₀ _ (by decide) (by decide) 1 (by decide)]
    rfl

end VLOven
